import Mathlib

/-!
Verification of the robotx_cli deployment pipeline (`cmd/deploy.go`,
`cmd/project_urls.go`, the result/error reporter and the entrypoint)
against its natural-language specification.

Strings are modelled as `List Char` where character-level reasoning is
needed; the embedding follows the Go source on a POSIX platform
(`filepath.Separator = '/'`).
-/

/-- Characters accepted by Go's `unicode.IsSpace` (the set trimmed by
`strings.TrimSpace`). -/
def isGoSpace (c : Char) : Bool :=
  let n := c.toNat
  n = 0x20 || (0x9 <= n && n <= 0xd) || n = 0x85 || n = 0xa0 ||
  n = 0x1680 || (0x2000 <= n && n <= 0x200a) ||
  n = 0x2028 || n = 0x2029 || n = 0x202f || n = 0x205f || n = 0x3000

/-- Go `strings.TrimSpace`: drop leading and trailing white space. -/
def goTrimSpace (l : List Char) : List Char :=
  ((l.dropWhile isGoSpace).reverse.dropWhile isGoSpace).reverse

/-- Character class `[a-z0-9]` of the project-name regular expression. -/
def isLowerAlnum (c : Char) : Bool :=
  ('a' ≤ c && c ≤ 'z') || ('0' ≤ c && c ≤ '9')

/-- Character class `[a-z0-9-]` of the project-name regular expression. -/
def isLowerAlnumHyphen (c : Char) : Bool :=
  isLowerAlnum c || c = '-'

/-- The anchored regular expression `^[a-z0-9][a-z0-9-]{2,61}[a-z0-9]$`
(`projectNamePattern` in `cmd/deploy.go`): one `[a-z0-9]`, then 2 to 61
characters of `[a-z0-9-]`, then one `[a-z0-9]`; total length 4 to 63. -/
def projectNamePattern (l : List Char) : Bool :=
  4 ≤ l.length && l.length ≤ 63 &&
  (match l.head? with | none => false | some c => isLowerAlnum c) &&
  (match l.getLast? with | none => false | some c => isLowerAlnum c) &&
  ((l.drop 1).dropLast.all isLowerAlnumHyphen)

/-- `validateProjectName` from `cmd/deploy.go`: trims the name, requires it
non-empty and matching `projectNamePattern`; `none` means accepted, `some`
carries the error message. -/
def validateProjectName (name : List Char) : Option String :=
  let trimmed := goTrimSpace name
  if trimmed = [] then
    some "project name is required"
  else if ¬ projectNamePattern trimmed then
    some "project name must be 4-63 chars of lowercase letters, digits, or hyphens"
  else
    none

/-- The condition stated by the specification for project names, read off
the spec's words: length between 4 and 63, every character a lowercase
letter, digit, or hyphen, and the first and last characters alphanumeric. -/
def specNameCondition (l : List Char) : Bool :=
  4 ≤ l.length && l.length ≤ 63 &&
  l.all isLowerAlnumHyphen &&
  (match l.head? with | none => false | some c => isLowerAlnum c) &&
  (match l.getLast? with | none => false | some c => isLowerAlnum c)

/-- The denylist of `shouldSkip` in `cmd/deploy.go`. -/
def skipDirs : List (List Char) :=
  ["node_modules", ".git", ".next", "dist", "build",
   ".DS_Store", "__pycache__", ".venv", "venv"].map String.data

/-- Go `strings.Contains sub` as a substring test on character lists. -/
def goContains (sub l : List Char) : Bool :=
  l.tails.any (fun t => sub.isPrefixOf t)

/-- `shouldSkip` from `cmd/deploy.go`: the relative path is skipped when it
has a denylist entry as a string prefix or contains `'/' ++ entry`
(`filepath.Separator` is `'/'`). -/
def shouldSkip (path : List Char) : Bool :=
  skipDirs.any (fun skip => skip.isPrefixOf path || goContains ('/' :: skip) path)

/-- The exclusion condition on a segmented relative path that actually
matches the behaviour of `shouldSkip`: some path segment has some denylist
entry as a string prefix. -/
def segSkipped (p : List (List Char)) : Bool :=
  p.any (fun seg => skipDirs.any (fun skip => skip.isPrefixOf seg))

/-- The exclusion condition stated by the specification: some path segment
equals a denylist entry. -/
def segEqSkipped (p : List (List Char)) : Bool :=
  p.any (fun seg => skipDirs.any (fun skip => seg = skip))

/-- Join path segments with the POSIX separator, as `filepath.Walk`'s
relative paths are formed. -/
def joinPath : List (List Char) → List Char
  | [] => []
  | [s] => s
  | s :: rest => s ++ '/' :: joinPath rest

/-- A directory tree entry, as walked by `packageSource`. -/
inductive FSEntry where
  | file (name : List Char)
  | dir (name : List Char) (children : List FSEntry)

/-- Name of a tree entry. -/
def FSEntry.name : FSEntry → List Char
  | .file n => n
  | .dir n _ => n

/-- The `filepath.Walk` callback of `packageSource` in `cmd/deploy.go`,
on a list of sibling entries below the prefix `pre` of path segments:
skipped files are dropped, skipped directories are pruned
(`filepath.SkipDir`), remaining directories are walked but not stored,
and each remaining file is stored under its relative path. -/
def walkList (pre : List (List Char)) : List FSEntry → List (List (List Char))
  | [] => []
  | .file n :: es =>
      (if shouldSkip (joinPath (pre ++ [n])) then [] else [pre ++ [n]]) ++
      walkList pre es
  | .dir n cs :: es =>
      (if shouldSkip (joinPath (pre ++ [n])) then [] else walkList (pre ++ [n]) cs) ++
      walkList pre es

/-- `packageSource` from `cmd/deploy.go`, as the list of zip entry keys it
produces: the walk starts at the project root whose own relative path is
`"."`. -/
def packageSource (root : List FSEntry) : List (List (List Char)) :=
  if shouldSkip (joinPath [['.']]) then [] else walkList [] root

/-- All file paths of the tree, relative to the root. -/
def filesList (pre : List (List Char)) : List FSEntry → List (List (List Char))
  | [] => []
  | .file n :: es => (pre ++ [n]) :: filesList pre es
  | .dir n cs :: es => filesList (pre ++ [n]) cs ++ filesList pre es

/-- All directory paths of the tree, relative to the root. -/
def dirsList (pre : List (List Char)) : List FSEntry → List (List (List Char))
  | [] => []
  | .file _ :: es => dirsList pre es
  | .dir n cs :: es => (pre ++ [n]) :: (dirsList (pre ++ [n]) cs ++ dirsList pre es)

/-- Well-formed directory tree: names contain no separator and sibling
names are distinct, as an actual file system guarantees. -/
def wfList : List FSEntry → Bool
  | [] => true
  | .file n :: es =>
      decide ('/' ∉ n) && decide (n ∉ es.map FSEntry.name) && wfList es
  | .dir n cs :: es =>
      decide ('/' ∉ n) && decide (n ∉ es.map FSEntry.name) && wfList cs && wfList es

/-- Induction principle following the recursion pattern of the walk. -/
theorem walk_induction
    (motive : List (List Char) → List FSEntry → Prop)
    (nil : ∀ pre, motive pre [])
    (file : ∀ pre n es, motive pre es → motive pre (FSEntry.file n :: es))
    (dir : ∀ pre n cs es, motive (pre ++ [n]) cs → motive pre es →
      motive pre (FSEntry.dir n cs :: es)) :
    ∀ pre cs, motive pre cs
  | pre, [] => nil pre
  | pre, .file n :: es =>
      file pre n es (walk_induction motive nil file dir pre es)
  | pre, .dir n cs :: es =>
      dir pre n cs es (walk_induction motive nil file dir (pre ++ [n]) cs)
        (walk_induction motive nil file dir pre es)

/-- A concrete well-formed tree used to instantiate the archiver theorems:
a source directory with one file, a top-level dotfile, and a dependency
cache directory. -/
def demoTree : List FSEntry :=
  [FSEntry.dir (String.data "src") [FSEntry.file (String.data "main.go")],
   FSEntry.file (String.data ".gitignore"),
   FSEntry.dir (String.data "node_modules") [FSEntry.file (String.data "x.js")]]

/-- String form of Go `strings.TrimSpace`. -/
def goTrim (s : String) : String :=
  ⟨goTrimSpace s.data⟩

/-- Go `strings.TrimSuffix s "/"`: remove one trailing slash if present. -/
def trimTrailingSlash (s : String) : String :=
  if s.data.getLast? = some '/' then ⟨s.data.dropLast⟩ else s

/-- ASCII fragment of Go `strings.ToLower` (project names in this pipeline
are ASCII). -/
def goToLowerChar (c : Char) : Char :=
  if 'A' ≤ c ∧ c ≤ 'Z' then Char.ofNat (c.toNat + 32) else c

/-- Go `strings.ToLower` on a string. -/
def goToLower (s : String) : String :=
  ⟨s.data.map goToLowerChar⟩

/-- A runtime URL reference attached to a project (spec section 3:
optional preview/publish URL references). -/
structure RuntimeRef where
  url : String
deriving DecidableEq, Repr

/-- The preview/publish runtime references of a project. -/
structure RuntimeRefs where
  preview : Option RuntimeRef
  publish : Option RuntimeRef
deriving DecidableEq, Repr

/-- A RobotX project as used by the deploy pipeline and
`cmd/project_urls.go`: identity, name, visibility, and the optional
preview/publish URL references of the spec's data model. -/
structure Project where
  projectID : String
  name : String
  visibility : String
  previewURL : String
  publishURL : String
  runtimeRefs : Option RuntimeRefs
deriving DecidableEq, Repr

/-- Backend-computed build plan attached to a source commit. -/
structure BuildPlan where
  needsBuild : Bool
  installCommand : String
  buildCommand : String
  outputDir : String
deriving DecidableEq, Repr

/-- Server-side scanner result wrapping the build plan. -/
structure ScannerResult where
  buildPlan : Option BuildPlan
deriving DecidableEq, Repr

/-- An uploaded source bundle. -/
structure SourceCommit where
  commitID : String
  scannerResult : Option ScannerResult
deriving DecidableEq, Repr

/-- A build record as polled by the client. -/
structure Build where
  buildID : String
  status : String
  previewPath : String
  versionSeq : Int
  versionLabel : String
  sourceRef : String
deriving DecidableEq, Repr

/-- Optional caller-supplied version label and source reference. -/
structure BuildVersionInput where
  versionLabel : String
  sourceRef : String
deriving DecidableEq, Repr

/-- Structured CLI error (`cliError` in the reporter): code, message,
process exit code, and the message of the wrapped error when present. -/
structure CLIError where
  code : String
  message : String
  exitCode : Nat
  errMsg : Option String := none
deriving DecidableEq, Repr

/-- `newCLIError` from the reporter. -/
def newCLIError (code message : String) (exitCode : Nat) (errMsg : Option String) :
    CLIError :=
  { code := code, message := message, exitCode := exitCode, errMsg := errMsg }

/-- `(*cliError).Error()`: the message, plus the wrapped error's message
when it is present, non-empty and different. -/
def CLIError.render (e : CLIError) : String :=
  match e.errMsg with
  | none => e.message
  | some m => if m = "" ∨ m = e.message then e.message else e.message ++ ": " ++ m

/-- The trimmed preview runtime-reference URL of a project (empty when the
references or the preview reference are absent). -/
def refsPreviewURL (p : Project) : String :=
  match p.runtimeRefs with
  | some refs =>
    match refs.preview with
    | some r => goTrim r.url
    | none => ""
  | none => ""

/-- The trimmed publish runtime-reference URL of a project (empty when the
references or the publish reference are absent). -/
def refsPublishURL (p : Project) : String :=
  match p.runtimeRefs with
  | some refs =>
    match refs.publish with
    | some r => goTrim r.url
    | none => ""
  | none => ""

/-- `projectPreviewURL` from `cmd/project_urls.go`. -/
def projectPreviewURL (project : Option Project) (fallbackBaseURL : String) : String :=
  match project with
  | none => ""
  | some p =>
    if goTrim p.previewURL ≠ "" then goTrim p.previewURL
    else if refsPreviewURL p ≠ "" then refsPreviewURL p
    else
      let projectID := goTrim p.projectID
      let baseURL := trimTrailingSlash (goTrim fallbackBaseURL)
      if projectID = "" ∨ baseURL = "" then ""
      else baseURL ++ "/preview/" ++ projectID

/-- `resolvePublishURL` from `cmd/project_urls.go`. -/
def resolvePublishURL (fallbackBaseURL : String) (project : Option Project) : String :=
  match project with
  | none => ""
  | some p =>
    if goTrim p.publishURL ≠ "" then goTrim p.publishURL
    else if refsPublishURL p ≠ "" then refsPublishURL p
    else
      let projectID := goTrim p.projectID
      let baseURL := trimTrailingSlash (goTrim fallbackBaseURL)
      if projectID = "" ∨ baseURL = "" then ""
      else baseURL ++ "/" ++ projectID

/-- `resolvePreviewURL` from `cmd/deploy.go`. -/
def resolvePreviewURL (baseURL : String) (project : Option Project)
    (build : Option Build) : String :=
  match build with
  | some b =>
    if goTrim b.previewPath ≠ "" then goTrim b.previewPath
    else projectPreviewURL project baseURL
  | none => projectPreviewURL project baseURL

/-- The deterministic publish-URL fallback alone (base URL without one
trailing slash, slash, project id), as the specification words it. -/
def specPublishFallback (fallbackBaseURL projectID : String) : String :=
  if goTrim projectID = "" ∨ trimTrailingSlash (goTrim fallbackBaseURL) = "" then ""
  else trimTrailingSlash (goTrim fallbackBaseURL) ++ "/" ++ goTrim projectID

/-- The success envelope of the deploy command (`deployResponse`). -/
structure DeployResponse where
  projectID : String
  projectName : String
  commitID : String
  buildID : String
  versionSeq : Int
  versionLabel : String
  sourceRef : String
  buildStatus : String
  previewURL : String
  productionURL : String
  published : Bool
  waited : Bool
  localBuild : Bool
deriving DecidableEq, Repr

/-- Output stream of an emission. -/
inductive StreamTag where
  | stdout
  | stderr
deriving DecidableEq, Repr

/-- What a single write to a stream consists of. -/
inductive Emission where
  | text
  | jsonSuccess (command : String) (data : DeployResponse)
  | jsonError (code message : String)
deriving DecidableEq, Repr

instance exceptDecEq {e a : Type} [DecidableEq e] [DecidableEq a] :
    DecidableEq (Except e a) := fun x y =>
  match x, y with
  | .ok u, .ok v =>
    if h : u = v then isTrue (by rw [h]) else isFalse (by simp [h])
  | .error u, .error v =>
    if h : u = v then isTrue (by rw [h]) else isFalse (by simp [h])
  | .ok _, .error _ => isFalse (by simp)
  | .error _, .ok _ => isFalse (by simp)

/-- Observable events of one deploy invocation: stream emissions, shell
executions, and backend calls (the GetBuild event records the call index
and the returned status). -/
inductive Event where
  | emit (s : StreamTag) (e : Emission)
  | shell (cmd : String)
  | apiCreateProject
  | apiUploadSource
  | apiUploadArtifacts
  | apiTriggerBuild
  | apiStartBuild
  | apiGetBuild (i : Nat) (result : Except String String)
  | apiGetLogs
  | apiPublish
deriving DecidableEq, Repr

/-- One `logf` progress line: `logWriter()` is stderr in JSON output mode
and stdout otherwise. -/
def logEvent (json : Bool) : Event :=
  Event.emit (if json then StreamTag.stderr else StreamTag.stdout) Emission.text

/-- The deploy command's flags (after cobra parsing), plus the normalized
machine-readable output mode of the root command. -/
structure DeployFlags where
  projectName : String
  visibility : String
  publish : Bool
  wait : Bool
  timeout : Nat
  localBuild : Bool
  installCmd : String
  buildCmd : String
  outputDir : String
  versionLabel : String
  sourceRef : String
  jsonOutput : Bool

/-- The backend gateway as observed by one invocation: the outcome of each
call the pipeline may make; `getBuild i` is the result of the i-th GetBuild
poll. -/
structure Backend where
  createProject : Except String Project
  uploadSource : Except String (Option SourceCommit × Option Build)
  uploadBuildArtifacts : Except String Build
  triggerBuild : Except String Build
  startBuild : Except String Unit
  getBuild : Nat → Except String Build
  getBuildLogs : Except String String
  publishBuild : Except String String

/-- The local environment of one invocation: configuration, file system
facts, shell results, and the backend. -/
structure DeployWorld where
  pathExists : Bool
  baseName : String
  baseURL : String
  apiKey : String
  packageSourceOk : Bool
  packageJsonExists : Bool
  shellOk : String → Bool
  artifactDirOk : String → Bool
  packageArtifactsOk : Bool
  jsonEncodeOk : Bool
  backend : Backend

/-- `resolveBuildVersionInput` from `cmd/deploy.go`. -/
def resolveBuildVersionInput (f : DeployFlags) : Option BuildVersionInput :=
  let label := goTrim f.versionLabel
  let ref := goTrim f.sourceRef
  if label = "" ∧ ref = "" then none
  else some { versionLabel := label, sourceRef := ref }

/-- `safeCommitID` from `cmd/deploy.go`. -/
def safeCommitID : Option SourceCommit → String
  | none => ""
  | some c => c.commitID

/-- `safeBuildID` from `cmd/deploy.go`. -/
def safeBuildID : Option Build → String
  | none => ""
  | some b => b.buildID

/-- `safeBuildStatus` from `cmd/deploy.go`. -/
def safeBuildStatus : Option Build → String
  | none => ""
  | some b => b.status

/-- `safeBuildVersionSeq` from `cmd/deploy.go`. -/
def safeBuildVersionSeq : Option Build → Int
  | none => 0
  | some b => b.versionSeq

/-- `safeBuildVersionLabel` from `cmd/deploy.go`. -/
def safeBuildVersionLabel : Option Build → String
  | none => ""
  | some b => goTrim b.versionLabel

/-- `safeBuildSourceRef` from `cmd/deploy.go`. -/
def safeBuildSourceRef (build : Option Build) (requested : Option BuildVersionInput) :
    String :=
  match build with
  | some b =>
    if goTrim b.sourceRef ≠ "" then goTrim b.sourceRef
    else
      match requested with
      | none => ""
      | some r => goTrim r.sourceRef
  | none =>
    match requested with
    | none => ""
    | some r => goTrim r.sourceRef

/-- `build != nil && build.Status == "success"`. -/
def buildIsSuccess : Option Build → Bool
  | some b => b.status = "success"
  | none => false

/-- Failure modes of the poll loop `waitForBuild`. -/
inductive WaitErr where
  | apiErr (msg : String)
  | timeout (sec : Nat)
  | unknown (status : String)
deriving DecidableEq, Repr

/-- The error message carried by each `waitForBuild` failure, as formatted
in `cmd/deploy.go`. -/
def waitErrMessage : WaitErr → String
  | .apiErr m => m
  | .timeout sec => "build timeout after " ++ toString sec ++ " seconds"
  | .unknown s => "unknown build status: " ++ s

/-- The loop of `waitForBuild` in `cmd/deploy.go`, in discrete time: after
k completed 5-second sleeps the elapsed time is 5k seconds; the loop first
checks `elapsed > timeout`, then calls GetBuild (`get k` is the k-th
call's result), returns on a terminal status, sleeps on queued/running,
and fails on any other status. Returns the outcome and the number of
GetBuild calls performed. -/
def waitForBuildAux (get : Nat → Except String Build) (timeoutSec : Nat)
    (k : Nat) : Except WaitErr Build × Nat :=
  if _h5 : timeoutSec < 5 * k then
    (Except.error (WaitErr.timeout timeoutSec), k)
  else
    match get k with
    | Except.error e => (Except.error (WaitErr.apiErr e), k + 1)
    | Except.ok b =>
      if b.status = "success" ∨ b.status = "failed" then
        (Except.ok b, k + 1)
      else if b.status = "queued" ∨ b.status = "running" then
        waitForBuildAux get timeoutSec (k + 1)
      else
        (Except.error (WaitErr.unknown b.status), k + 1)
termination_by timeoutSec / 5 + 1 - k
decreasing_by
  simp_wf
  omega

/-- `waitForBuild` from `cmd/deploy.go`: the loop started at elapsed time
zero. -/
def waitForBuild (get : Nat → Except String Build) (timeoutSec : Nat) :
    Except WaitErr Build × Nat :=
  waitForBuildAux get timeoutSec 0

/-- The GetBuild events of a poll loop that performed `polls` calls. -/
def waitEvents (get : Nat → Except String Build) (polls : Nat) : List Event :=
  (List.range polls).map (fun i => Event.apiGetBuild i ((get i).map Build.status))

/-- The command-resolution part of `runLocalBuild` in `cmd/deploy.go`:
the install and build commands actually run, after explicit override,
build plan, package.json convention, and the suppression when the plan
says no build is needed and no override was given. -/
def resolveLocalCommands (f : DeployFlags) (w : DeployWorld)
    (plan : Option BuildPlan) : String × String :=
  let planInstall := match plan with | some p => goTrim p.installCommand | none => ""
  let planBuild := match plan with | some p => goTrim p.buildCommand | none => ""
  let install1 := goTrim f.installCmd
  let install2 := if install1 = "" ∧ planInstall ≠ "" then planInstall else install1
  let install3 := if install2 = "" ∧ w.packageJsonExists then "npm install" else install2
  let build1 := goTrim f.buildCmd
  let build2 := if build1 = "" ∧ planBuild ≠ "" then planBuild else build1
  let build3 := if build2 = "" ∧ w.packageJsonExists then "npm run build" else build2
  let skipAll : Bool :=
    (match plan with | some p => !p.needsBuild | none => false) &&
    f.installCmd = "" && f.buildCmd = ""
  (if skipAll then "" else install3, if skipAll then "" else build3)

/-- `runLocalBuild` from `cmd/deploy.go`: run each non-empty resolved
command through the shell, stopping at the first failure. -/
def runLocalBuild (f : DeployFlags) (w : DeployWorld) (plan : Option BuildPlan) :
    Except String Unit × List Event :=
  let install := (resolveLocalCommands f w plan).1
  let buildC := (resolveLocalCommands f w plan).2
  if install = "" then
    if buildC = "" then (Except.ok (), [])
    else if w.shellOk buildC then
      (Except.ok (), [logEvent f.jsonOutput, Event.shell buildC])
    else
      (Except.error "build failed: shell error",
       [logEvent f.jsonOutput, Event.shell buildC])
  else
    if w.shellOk install then
      if buildC = "" then
        (Except.ok (), [logEvent f.jsonOutput, Event.shell install])
      else if w.shellOk buildC then
        (Except.ok (),
         [logEvent f.jsonOutput, Event.shell install,
          logEvent f.jsonOutput, Event.shell buildC])
      else
        (Except.error "build failed: shell error",
         [logEvent f.jsonOutput, Event.shell install,
          logEvent f.jsonOutput, Event.shell buildC])
    else
      (Except.error "install failed: shell error",
       [logEvent f.jsonOutput, Event.shell install])

/-- The preview URL recorded in the envelope, after the final fill-in of
`runDeploy`. -/
def finalPreviewURL (w : DeployWorld) (proj : Project) (build : Option Build)
    (previewURL : String) : String :=
  if previewURL = "" ∧ buildIsSuccess build then
    resolvePreviewURL w.baseURL (some proj) build
  else previewURL

/-- The production URL recorded in the envelope, after the final fill-in of
`runDeploy`. -/
def finalProductionURL (f : DeployFlags) (w : DeployWorld) (proj : Project)
    (build : Option Build) (productionURL : String) : String :=
  if productionURL = "" ∧ f.publish ∧ buildIsSuccess build then
    resolvePublishURL w.baseURL (some proj)
  else productionURL

/-- The success envelope assembled at the end of `runDeploy`. -/
def deployResp (f : DeployFlags) (w : DeployWorld) (proj : Project)
    (usedProjectName : String) (commit : Option SourceCommit)
    (version : Option BuildVersionInput) (build : Option Build)
    (previewURL productionURL : String) : DeployResponse :=
  { projectID := proj.projectID
    projectName := usedProjectName
    commitID := safeCommitID commit
    buildID := safeBuildID build
    versionSeq := safeBuildVersionSeq build
    versionLabel := safeBuildVersionLabel build
    sourceRef := safeBuildSourceRef build version
    buildStatus := safeBuildStatus build
    previewURL := finalPreviewURL w proj build previewURL
    productionURL := finalProductionURL f w proj build productionURL
    published := f.publish && finalProductionURL f w proj build productionURL ≠ ""
    waited := f.wait
    localBuild := f.localBuild }

/-- The final stage of `runDeploy`: preview/production URL fill-ins, the
envelope, and `emitSuccess` (one JSON object to stdout in JSON mode,
nothing in text mode; an encoding failure is `output_error`). -/
def deployEmit (f : DeployFlags) (w : DeployWorld) (proj : Project)
    (usedProjectName : String) (commit : Option SourceCommit)
    (version : Option BuildVersionInput) (build : Option Build)
    (previewURL productionURL : String) :
    Except CLIError DeployResponse × List Event :=
  let resp := deployResp f w proj usedProjectName commit version build
    previewURL productionURL
  if f.jsonOutput then
    if w.jsonEncodeOk then
      (Except.ok resp, [Event.emit StreamTag.stdout (Emission.jsonSuccess "deploy" resp)])
    else
      (Except.error (newCLIError "output_error" "failed to render JSON output" 1
        (some "encode error")), [])
  else
    (Except.ok resp, [])

/-- The publish stage of `runDeploy` (step 7): call PublishBuild when
requested and the build succeeded, record the trimmed returned path or the
resolver fallback, then emit. -/
def deployPublish (f : DeployFlags) (w : DeployWorld) (proj : Project)
    (usedProjectName : String) (commit : Option SourceCommit)
    (version : Option BuildVersionInput) (build : Option Build)
    (previewURL : String) :
    Except CLIError DeployResponse × List Event :=
  if f.publish ∧ buildIsSuccess build then
    match w.backend.publishBuild with
    | Except.error e =>
      (Except.error (newCLIError "publish_failed" "failed to publish" 4 (some e)),
       [logEvent f.jsonOutput, Event.apiPublish])
    | Except.ok publicPath =>
      let prod0 := goTrim publicPath
      let productionURL :=
        if prod0 = "" then resolvePublishURL w.baseURL (some proj) else prod0
      let ev :=
        [logEvent f.jsonOutput, Event.apiPublish, logEvent f.jsonOutput] ++
        (if productionURL ≠ "" then [logEvent f.jsonOutput] else [])
      ((deployEmit f w proj usedProjectName commit version build
          previewURL productionURL).1,
       ev ++ (deployEmit f w proj usedProjectName commit version build
          previewURL productionURL).2)
  else
    deployEmit f w proj usedProjectName commit version build previewURL ""

/-- The waiting stage of `runDeploy` (step 6) followed by publish and
emit: poll when waiting was requested, surface logs and fail on a
non-success terminal status, otherwise record the preview URL. -/
def deployAfterBuild (f : DeployFlags) (w : DeployWorld) (proj : Project)
    (usedProjectName : String) (commit : Option SourceCommit)
    (version : Option BuildVersionInput) (build : Option Build) :
    Except CLIError DeployResponse × List Event :=
  if f.wait then
    if safeBuildID build = "" then
      (Except.error (newCLIError "build_failed"
        "no build ID available to wait for completion" 3 none), [])
    else
      match (waitForBuild w.backend.getBuild f.timeout).1 with
      | Except.error werr =>
        (Except.error (newCLIError "build_failed" "build failed" 3
          (some (waitErrMessage werr))),
         [logEvent f.jsonOutput] ++
           waitEvents w.backend.getBuild (waitForBuild w.backend.getBuild f.timeout).2)
      | Except.ok b =>
        if b.status = "success" then
          let previewURL := resolvePreviewURL w.baseURL (some proj) (some b)
          let ev :=
            [logEvent f.jsonOutput] ++
            waitEvents w.backend.getBuild (waitForBuild w.backend.getBuild f.timeout).2 ++
            [logEvent f.jsonOutput] ++
            (if previewURL ≠ "" then [logEvent f.jsonOutput] else [])
          ((deployPublish f w proj usedProjectName commit version
              (some b) previewURL).1,
           ev ++ (deployPublish f w proj usedProjectName commit version
              (some b) previewURL).2)
        else
          let logsEv :=
            [Event.apiGetLogs] ++
            (match w.backend.getBuildLogs with
             | Except.ok logs => if logs ≠ "" then [logEvent f.jsonOutput] else []
             | Except.error _ => [])
          (Except.error (newCLIError "build_failed"
            ("build failed with status: " ++ b.status) 3 none),
           [logEvent f.jsonOutput] ++
             waitEvents w.backend.getBuild (waitForBuild w.backend.getBuild f.timeout).2 ++
             [logEvent f.jsonOutput] ++ logsEv)
  else
    match build with
    | some b =>
      if b.status = "success" then
        let previewURL := resolvePreviewURL w.baseURL (some proj) (some b)
        let ev :=
          [logEvent f.jsonOutput] ++
          (if previewURL ≠ "" then [logEvent f.jsonOutput] else [])
        ((deployPublish f w proj usedProjectName commit version
            (some b) previewURL).1,
         ev ++ (deployPublish f w proj usedProjectName commit version
            (some b) previewURL).2)
      else
        deployPublish f w proj usedProjectName commit version (some b) ""
    | none =>
      deployPublish f w proj usedProjectName commit version none ""

/-- The build plan attached to the uploaded commit
(`commit.ScannerResult.BuildPlan` when present). -/
def deployPlanOf (commit : Option SourceCommit) : Option BuildPlan :=
  match commit with
  | some c => match c.scannerResult with | some sr => sr.buildPlan | none => none
  | none => none

/-- The artifact output directory of the local-build path: the explicit
flag, else the build plan's trimmed output dir, else `dist`. -/
def artifactDirOf (f : DeployFlags) (plan : Option BuildPlan) : String :=
  let planOut := match plan with | some p => goTrim p.outputDir | none => ""
  let artifactDir1 := if f.outputDir = "" ∧ planOut ≠ "" then planOut else f.outputDir
  if artifactDir1 = "" then "dist" else artifactDir1

/-- The build-mode stage of `runDeploy` (step 5): local build and artifact
upload, or remote trigger/start; followed by the wait, publish and emit
stages. -/
def deployBuildStage (f : DeployFlags) (w : DeployWorld) (proj : Project)
    (usedProjectName : String) (commit : Option SourceCommit)
    (version : Option BuildVersionInput) (build0 : Option Build) :
    Except CLIError DeployResponse × List Event :=
  if f.localBuild then
    if safeBuildID build0 = "" then
      (Except.error (newCLIError "local_build_unsupported"
        "server did not return a build ID; local build upload is not supported by this server"
        2 none), [])
    else
      match (runLocalBuild f w (deployPlanOf commit)).1 with
      | Except.error e =>
        (Except.error (newCLIError "build_failed" "local build failed" 3 (some e)),
         (runLocalBuild f w (deployPlanOf commit)).2)
      | Except.ok _ =>
        if ¬ w.artifactDirOk (artifactDirOf f (deployPlanOf commit)) then
          (Except.error (newCLIError "build_failed"
            ("output directory missing: " ++ artifactDirOf f (deployPlanOf commit))
            3 none),
           (runLocalBuild f w (deployPlanOf commit)).2)
        else if ¬ w.packageArtifactsOk then
          (Except.error (newCLIError "build_failed" "failed to package build output" 3
            (some "io error")),
           (runLocalBuild f w (deployPlanOf commit)).2 ++ [logEvent f.jsonOutput])
        else
          match w.backend.uploadBuildArtifacts with
          | Except.error e =>
            (Except.error (newCLIError "api_error" "failed to upload build artifacts" 2
              (some e)),
             (runLocalBuild f w (deployPlanOf commit)).2 ++
               [logEvent f.jsonOutput, logEvent f.jsonOutput,
                logEvent f.jsonOutput, Event.apiUploadArtifacts])
          | Except.ok b1 =>
            (((deployAfterBuild f w proj usedProjectName commit version (some b1)).1),
             ((runLocalBuild f w (deployPlanOf commit)).2 ++
               [logEvent f.jsonOutput, logEvent f.jsonOutput,
                logEvent f.jsonOutput, Event.apiUploadArtifacts, logEvent f.jsonOutput]) ++
               (deployAfterBuild f w proj usedProjectName commit version (some b1)).2)
  else
    if safeBuildID build0 = "" then
      if safeCommitID commit = "" then
        (Except.error (newCLIError "build_failed"
          "no commit ID available to trigger build" 3 none),
         [logEvent f.jsonOutput])
      else
        match w.backend.triggerBuild with
        | Except.error e =>
          (Except.error (newCLIError "api_error" "failed to trigger build" 2 (some e)),
           [logEvent f.jsonOutput, Event.apiTriggerBuild])
        | Except.ok b1 =>
          ((deployAfterBuild f w proj usedProjectName commit version (some b1)).1,
           [logEvent f.jsonOutput, Event.apiTriggerBuild, logEvent f.jsonOutput] ++
             (deployAfterBuild f w proj usedProjectName commit version (some b1)).2)
    else
      match w.backend.startBuild with
      | Except.error e =>
        (Except.error (newCLIError "api_error" "failed to start build" 2 (some e)),
         [logEvent f.jsonOutput, Event.apiStartBuild])
      | Except.ok _ =>
        ((deployAfterBuild f w proj usedProjectName commit version build0).1,
         [logEvent f.jsonOutput, Event.apiStartBuild, logEvent f.jsonOutput] ++
           (deployAfterBuild f w proj usedProjectName commit version build0).2)

/-- The events `runDeploy` has emitted once the upload call returned
successfully: version and resolve logs, the CreateProject call, packaging
logs, the UploadSource call, and the conditional uploaded/created logs. -/
def uploadTrace (f : DeployFlags) (commit : Option SourceCommit)
    (build0 : Option Build) : List Event :=
  ((match resolveBuildVersionInput f with
    | some _ => [logEvent f.jsonOutput, logEvent f.jsonOutput]
    | none => []) ++ [logEvent f.jsonOutput] ++
   [Event.apiCreateProject, logEvent f.jsonOutput, logEvent f.jsonOutput] ++
   [logEvent f.jsonOutput, logEvent f.jsonOutput, logEvent f.jsonOutput] ++
   [Event.apiUploadSource]) ++
  (if safeCommitID commit ≠ "" then [logEvent f.jsonOutput] else []) ++
  (if safeBuildID build0 ≠ "" then [logEvent f.jsonOutput] else [])

/-- `runDeploy` from `cmd/deploy.go`: path and configuration checks,
project name resolution and validation, project resolve, packaging,
upload, then the build/wait/publish/emit stages. Returns the outcome and
the ordered trace of observable events. -/
def runDeploy (f : DeployFlags) (w : DeployWorld) :
    Except CLIError DeployResponse × List Event :=
  if ¬ w.pathExists then
    (Except.error (newCLIError "invalid_project_path" "project path does not exist" 1
      none), [])
  else if w.baseURL = "" then
    (Except.error (newCLIError "missing_base_url"
      "base URL is required (use --base-url or set ROBOTX_BASE_URL)" 1 none), [])
  else if w.apiKey = "" then
    (Except.error (newCLIError "missing_api_key"
      "API key is required (use --api-key or set ROBOTX_API_KEY)" 1 none), [])
  else
    let name0 := goTrim f.projectName
    let name1 := if name0 = "" then w.baseName else name0
    let usedProjectName := goToLower (goTrim name1)
    match validateProjectName usedProjectName.data with
    | some errMsg =>
      (Except.error (newCLIError "invalid_project_name" errMsg 1 none), [])
    | none =>
      let version := resolveBuildVersionInput f
      let ev0 : List Event :=
        (match version with
         | some _ => [logEvent f.jsonOutput, logEvent f.jsonOutput]
         | none => []) ++ [logEvent f.jsonOutput]
      match w.backend.createProject with
      | Except.error e =>
        (Except.error (newCLIError "api_error" "failed to resolve project" 2 (some e)),
         ev0 ++ [Event.apiCreateProject])
      | Except.ok proj =>
        let ev1 := ev0 ++ [Event.apiCreateProject, logEvent f.jsonOutput,
          logEvent f.jsonOutput]
        if ¬ w.packageSourceOk then
          (Except.error (newCLIError "package_failed" "failed to package source" 1
            (some "io error")), ev1)
        else
          let ev2 := ev1 ++ [logEvent f.jsonOutput, logEvent f.jsonOutput,
            logEvent f.jsonOutput]
          match w.backend.uploadSource with
          | Except.error e =>
            (Except.error (newCLIError "api_error" "failed to upload source" 2 (some e)),
             ev2 ++ [Event.apiUploadSource])
          | Except.ok (commit, build0) =>
            ((deployBuildStage f w proj proj.name commit version build0).1,
             uploadTrace f commit build0 ++
               (deployBuildStage f w proj proj.name commit version build0).2)

/-- `HandleError` from the reporter together with `classifyError`: a nil
error exits 0; a `cliError` is reported with its own code, message and
exit code — as one JSON object on stderr in JSON mode, as a plain text
line on stderr otherwise. -/
def HandleError (json : Bool) : Option CLIError → Nat × List Event
  | none => (0, [])
  | some e =>
    if json then
      (e.exitCode, [Event.emit StreamTag.stderr (Emission.jsonError e.code e.message)])
    else
      (e.exitCode, [Event.emit StreamTag.stderr Emission.text])

/-- The whole process: `main` runs the command and exits with
`HandleError`'s code on failure and 0 on success (the root command
silences cobra's own output). Returns the exit code and the full event
trace. -/
def deployProcess (f : DeployFlags) (w : DeployWorld) : Nat × List Event :=
  match runDeploy f w with
  | (Except.ok _, ev) => (0, ev)
  | (Except.error e, ev) =>
    let h := HandleError f.jsonOutput (some e)
    (h.1, ev ++ h.2)

/-- Is the event a GetBuild call. -/
def isGetBuildEvent : Event → Bool
  | .apiGetBuild _ _ => true
  | _ => false

/-- Is the event a TriggerBuild or StartBuild call. -/
def isTriggerOrStart : Event → Bool
  | .apiTriggerBuild => true
  | .apiStartBuild => true
  | _ => false

/-- Is the event a shell execution. -/
def isShellEvent : Event → Bool
  | .shell _ => true
  | _ => false

/-- Is the event a GetBuild call that returned a terminal status. -/
def isTerminalGetEvent : Event → Bool
  | .apiGetBuild _ (Except.ok s) => s = "success" || s = "failed"
  | _ => false

/-- Neither a GetBuild nor a trigger/start call. -/
def cleanEvent (e : Event) : Bool :=
  !(isGetBuildEvent e) && !(isTriggerOrStart e)

/-- After any GetBuild event with a terminal result, the trace contains no
further GetBuild, TriggerBuild, or StartBuild events. -/
def noBuildCallsAfterTerminal (tr : List Event) : Prop :=
  ∀ i j e1 e2, tr.get? i = some e1 → tr.get? j = some e2 → i < j →
    isTerminalGetEvent e1 = true →
    isGetBuildEvent e2 = false ∧ isTriggerOrStart e2 = false

/-- All emissions written to the primary output stream. -/
def stdoutEmissions (tr : List Event) : List Emission :=
  tr.filterMap (fun ev =>
    match ev with
    | Event.emit StreamTag.stdout em => some em
    | _ => none)

/-- All error JSON objects written to the diagnostic stream. -/
def stderrJsonErrors (tr : List Event) : List Emission :=
  tr.filterMap (fun ev =>
    match ev with
    | Event.emit StreamTag.stderr (Emission.jsonError c m) =>
      some (Emission.jsonError c m)
    | _ => none)

/-- The closed error taxonomy of the specification with its exit codes. -/
def errorTaxonomy : List (String × Nat) :=
  [("invalid_project_path", 1), ("invalid_project_name", 1),
   ("missing_base_url", 1), ("missing_api_key", 1),
   ("package_failed", 1), ("output_error", 1),
   ("api_error", 2), ("local_build_unsupported", 2),
   ("build_failed", 3), ("publish_failed", 4)]

/-- Is the event an error-JSON emission. -/
def isJsonErrorEvent : Event → Bool
  | .emit _ (.jsonError _ _) => true
  | _ => false

/-- Is the event an emission on the primary output stream. -/
def isStdoutEmit : Event → Bool
  | .emit .stdout _ => true
  | _ => false

/-- An event that is no build call, no shell execution, and no error-JSON
emission. -/
def benignEvent (e : Event) : Bool :=
  cleanEvent e && !(isShellEvent e) && !(isJsonErrorEvent e)

def demoProject : Project :=
  { projectID := "p1", name := "my-app", visibility := "public",
    previewURL := "", publishURL := "", runtimeRefs := none }

def demoCommit : SourceCommit :=
  { commitID := "c1", scannerResult := none }

def demoBuild (id st : String) : Build :=
  { buildID := id, status := st, previewPath := "", versionSeq := 1,
    versionLabel := "", sourceRef := "" }

def demoBackend : Backend :=
  { createProject := Except.ok demoProject
    uploadSource := Except.ok (some demoCommit, some (demoBuild "b1" "queued"))
    uploadBuildArtifacts := Except.error "unused"
    triggerBuild := Except.error "unused"
    startBuild := Except.ok ()
    getBuild := fun _ => Except.ok (demoBuild "b1" "queued")
    getBuildLogs := Except.error "unused"
    publishBuild := Except.ok "" }

def demoFlags : DeployFlags :=
  { projectName := "my-app", visibility := "", publish := false, wait := false,
    timeout := 7, localBuild := false, installCmd := "", buildCmd := "",
    outputDir := "", versionLabel := "", sourceRef := "", jsonOutput := true }

def demoWorld : DeployWorld :=
  { pathExists := true, baseName := "demo", baseURL := "https://api.example",
    apiKey := "k", packageSourceOk := true, packageJsonExists := false,
    shellOk := fun _ => true, artifactDirOk := fun _ => true,
    packageArtifactsOk := true, jsonEncodeOk := true, backend := demoBackend }

def demoResp : DeployResponse :=
  { projectID := "p1", projectName := "my-app", commitID := "c1", buildID := "b1",
    versionSeq := 1, versionLabel := "", sourceRef := "", buildStatus := "queued",
    previewURL := "", productionURL := "", published := false, waited := false,
    localBuild := false }

def waitDemoFlags : DeployFlags := { demoFlags with wait := true }

def unknownStatusWorld : DeployWorld :=
  { demoWorld with backend := { demoBackend with
      getBuild := fun _ => Except.ok (demoBuild "b1" "weird") } }

def badPathWorld : DeployWorld := { demoWorld with pathExists := false }

def localFlags : DeployFlags := { demoFlags with localBuild := true }

def noBuildIdWorld : DeployWorld :=
  { demoWorld with backend := { demoBackend with
      uploadSource := Except.ok (some demoCommit, none) } }

def c8xProject : Project := { demoProject with publishURL := "https://custom.example" }

def publishFlags : DeployFlags := { demoFlags with publish := true }

def c8xWorld : DeployWorld :=
  { demoWorld with backend := { demoBackend with
      createProject := Except.ok c8xProject
      uploadSource := Except.ok (some demoCommit, some (demoBuild "b1" "success")) } }

def c8xResp : DeployResponse :=
  { projectID := "p1", projectName := "my-app", commitID := "c1", buildID := "b1",
    versionSeq := 1, versionLabel := "", sourceRef := "", buildStatus := "success",
    previewURL := "https://api.example/preview/p1",
    productionURL := "https://custom.example", published := true, waited := false,
    localBuild := false }

def c8World : DeployWorld :=
  { demoWorld with backend := { demoBackend with
      uploadSource := Except.ok (some demoCommit, some (demoBuild "b1" "success"))
      publishBuild := Except.ok " /p/custom " } }

def c8Resp : DeployResponse :=
  { projectID := "p1", projectName := "my-app", commitID := "c1", buildID := "b1",
    versionSeq := 1, versionLabel := "", sourceRef := "", buildStatus := "success",
    previewURL := "https://api.example/preview/p1", productionURL := "/p/custom",
    published := true, waited := false, localBuild := false }

def c10Project : Project := { demoProject with projectID := "" }

def c10World : DeployWorld :=
  { demoWorld with backend := { demoBackend with
      createProject := Except.ok c10Project
      uploadSource := Except.ok (some demoCommit, some (demoBuild "b1" "success")) } }

def c10Resp : DeployResponse :=
  { projectID := "", projectName := "my-app", commitID := "c1", buildID := "b1",
    versionSeq := 1, versionLabel := "", sourceRef := "", buildStatus := "success",
    previewURL := "", productionURL := "", published := false, waited := false,
    localBuild := false }

-- ===== DEFINITIONS ABOVE / THEOREMS BELOW =====

theorem listAny_congr (l : List (List Char)) (f g : List Char → Bool)
    (h : ∀ a ∈ l, f a = g a) : l.any f = l.any g := by
  induction l with
  | nil => rfl
  | cons x xs ih =>
    simp only [List.any_cons, h x (by simp)]
    rw [ih fun a ha => h a (List.mem_cons_of_mem _ ha)]

theorem isPrefixOf_append_cons (p a b : List Char) (c : Char) (hc : c ∉ p) :
    p.isPrefixOf (a ++ c :: b) = p.isPrefixOf a := by
  induction p generalizing a with
  | nil => simp [List.isPrefixOf]
  | cons x p' ih =>
    cases a with
    | nil =>
      have hxc : ¬ (x == c) := by
        simp only [List.mem_cons, not_or] at hc
        simp [Ne.symm hc.1]
      simp [List.isPrefixOf, hxc]
    | cons y a' =>
      have hcp' : c ∉ p' := by
        simp only [List.mem_cons, not_or] at hc
        exact hc.2
      simp [List.isPrefixOf, ih a' hcp']

theorem goContains_of_not_mem (nd l : List Char) (c : Char) (h : c ∉ l) :
    goContains (c :: nd) l = false := by
  induction l with
  | nil => simp [goContains, List.isPrefixOf]
  | cons y l' ih =>
    have hyc : ¬ (c == y) := by
      simp only [List.mem_cons, not_or] at h
      simp [h.1]
    have hcl : c ∉ l' := by
      simp only [List.mem_cons, not_or] at h
      exact h.2
    simp [goContains, List.isPrefixOf, hyc] at ih ⊢
    exact ih hcl

theorem goContains_append_cons (nd s b : List Char) (c : Char) (hs : c ∉ s) :
    goContains (c :: nd) (s ++ c :: b) =
      (nd.isPrefixOf b || goContains (c :: nd) b) := by
  induction s with
  | nil => simp [goContains, List.isPrefixOf]
  | cons y s' ih =>
    have hyc : ¬ (c == y) := by
      simp only [List.mem_cons, not_or] at hs
      simp [hs.1]
    have hcs : c ∉ s' := by
      simp only [List.mem_cons, not_or] at hs
      exact hs.2
    simp [goContains, List.isPrefixOf, hyc] at ih ⊢
    exact ih hcs

theorem skipCond_joinPath (skip : List Char) (hsep : '/' ∉ skip) (hne : skip ≠ [])
    (segs : List (List Char)) (hsegs : ∀ s ∈ segs, '/' ∉ s) :
    (skip.isPrefixOf (joinPath segs) || goContains ('/' :: skip) (joinPath segs)) =
      segs.any (fun s => skip.isPrefixOf s) := by
  induction segs with
  | nil =>
    obtain ⟨x, skip', rfl⟩ : ∃ x skip', skip = x :: skip' := by
      cases skip with
      | nil => exact absurd rfl hne
      | cons x s => exact ⟨x, s, rfl⟩
    simp [joinPath, goContains, List.isPrefixOf]
  | cons s rest ih =>
    have hs : '/' ∉ s := hsegs s (by simp)
    have hrest : ∀ t ∈ rest, '/' ∉ t := fun t ht => hsegs t (List.mem_cons_of_mem _ ht)
    cases rest with
    | nil =>
      simp [joinPath, goContains_of_not_mem _ _ _ hs]
    | cons r rest' =>
      have hj : joinPath (s :: r :: rest') = s ++ '/' :: joinPath (r :: rest') := rfl
      rw [hj, isPrefixOf_append_cons _ _ _ _ hsep,
        goContains_append_cons _ _ _ _ hs]
      rw [ih hrest]
      simp [List.any_cons]

theorem shouldSkip_joinPath (segs : List (List Char)) (hsegs : ∀ s ∈ segs, '/' ∉ s) :
    shouldSkip (joinPath segs) = segSkipped segs := by
  have hfacts : ∀ skip ∈ skipDirs, ¬ ('/' ∈ skip) ∧ skip ≠ [] := by decide
  unfold shouldSkip segSkipped
  have h1 : skipDirs.any (fun skip => skip.isPrefixOf (joinPath segs) ||
      goContains ('/' :: skip) (joinPath segs)) =
      skipDirs.any (fun skip => segs.any (fun s => skip.isPrefixOf s)) := by
    apply listAny_congr
    intro skip hskip
    exact skipCond_joinPath skip (hfacts skip hskip).1 (hfacts skip hskip).2 segs hsegs
  rw [h1]
  rw [Bool.eq_iff_iff]
  simp only [List.any_eq_true]
  constructor
  · rintro ⟨skip, hskip, s, hs, hp⟩
    exact ⟨s, hs, skip, hskip, hp⟩
  · rintro ⟨s, hs, skip, hskip, hp⟩
    exact ⟨skip, hskip, s, hs, hp⟩

theorem segSkipped_append_left (a b : List (List Char)) (h : segSkipped a = true) :
    segSkipped (a ++ b) = true := by
  unfold segSkipped at h ⊢
  rw [List.any_append, h]
  rfl

theorem mem_filesList_structure :
    ∀ pre cs, ∀ p ∈ filesList pre cs,
      ∃ n rest, n ∈ cs.map FSEntry.name ∧ p = pre ++ n :: rest := by
  apply walk_induction
    (motive := fun pre cs => ∀ p ∈ filesList pre cs,
      ∃ n rest, n ∈ cs.map FSEntry.name ∧ p = pre ++ n :: rest)
  · intro pre p hp
    simp [filesList] at hp
  · intro pre n es ih p hp
    rw [filesList] at hp
    rcases List.mem_cons.mp hp with h | h
    · exact ⟨n, [], by simp [FSEntry.name], h⟩
    · obtain ⟨n', rest, hn', hp'⟩ := ih p h
      exact ⟨n', rest, by simp [hn'], hp'⟩
  · intro pre n cs es ih1 ih2 p hp
    rw [filesList] at hp
    rcases List.mem_append.mp hp with h | h
    · obtain ⟨n', rest, _, hp'⟩ := ih1 p h
      exact ⟨n, n' :: rest, by simp [FSEntry.name], by simp [hp']⟩
    · obtain ⟨n', rest, hn', hp'⟩ := ih2 p h
      exact ⟨n', rest, by simp [hn'], hp'⟩

theorem wfList_file (n : List Char) (es : List FSEntry)
    (h : wfList (FSEntry.file n :: es) = true) :
    '/' ∉ n ∧ n ∉ es.map FSEntry.name ∧ wfList es = true := by
  rw [wfList] at h
  simp only [Bool.and_eq_true, decide_eq_true_eq] at h
  exact ⟨h.1.1, h.1.2, h.2⟩

theorem wfList_dir (n : List Char) (cs es : List FSEntry)
    (h : wfList (FSEntry.dir n cs :: es) = true) :
    '/' ∉ n ∧ n ∉ es.map FSEntry.name ∧ wfList cs = true ∧ wfList es = true := by
  rw [wfList] at h
  simp only [Bool.and_eq_true, decide_eq_true_eq] at h
  exact ⟨h.1.1.1, h.1.1.2, h.1.2, h.2⟩

theorem walkList_eq_filter :
    ∀ pre cs, (∀ s ∈ pre, '/' ∉ s) → wfList cs = true →
      walkList pre cs = (filesList pre cs).filter (fun p => !(segSkipped p)) := by
  apply walk_induction
    (motive := fun pre cs => (∀ s ∈ pre, '/' ∉ s) → wfList cs = true →
      walkList pre cs = (filesList pre cs).filter (fun p => !(segSkipped p)))
  · intro pre _ _
    simp [walkList, filesList]
  · intro pre n es ih hpre hwf
    obtain ⟨hn, _, hes⟩ := wfList_file n es hwf
    have hsegs : ∀ s ∈ pre ++ [n], '/' ∉ s := by
      intro s hs
      rcases List.mem_append.mp hs with h | h
      · exact hpre s h
      · simp at h
        subst h
        exact hn
    rw [walkList, filesList, shouldSkip_joinPath _ hsegs, List.filter_cons,
      ih hpre hes]
    cases h : segSkipped (pre ++ [n]) <;> simp [h]
  · intro pre n cs es ih1 ih2 hpre hwf
    obtain ⟨hn, _, hcs, hes⟩ := wfList_dir n cs es hwf
    have hsegs : ∀ s ∈ pre ++ [n], '/' ∉ s := by
      intro s hs
      rcases List.mem_append.mp hs with h | h
      · exact hpre s h
      · simp at h
        subst h
        exact hn
    rw [walkList, filesList, List.filter_append, shouldSkip_joinPath _ hsegs,
      ih2 hpre hes]
    cases h : segSkipped (pre ++ [n]) with
    | false =>
      rw [if_neg (by simp [h]), ih1 hsegs hcs]
    | true =>
      rw [if_pos rfl]
      have hnil : (filesList (pre ++ [n]) cs).filter (fun p => !(segSkipped p)) = [] := by
        rw [List.filter_eq_nil_iff]
        intro p hp
        obtain ⟨n', rest, _, hp'⟩ := mem_filesList_structure (pre ++ [n]) cs p hp
        rw [hp', segSkipped_append_left _ _ h]
        simp
      rw [hnil]

theorem head_seg_eq (pre : List (List Char)) (n n' : List Char)
    (rest rest' : List (List Char))
    (h : pre ++ n :: rest = pre ++ n' :: rest') : n = n' ∧ rest = rest' := by
  have h2 := List.append_cancel_left h
  exact ⟨(List.cons.injEq _ _ _ _ ▸ h2).1, (List.cons.injEq _ _ _ _ ▸ h2).2⟩

theorem nodup_filesList :
    ∀ pre cs, wfList cs = true → (filesList pre cs).Nodup := by
  apply walk_induction
    (motive := fun pre cs => wfList cs = true → (filesList pre cs).Nodup)
  · intro pre _
    simp [filesList]
  · intro pre n es ih hwf
    obtain ⟨_, hmem, hes⟩ := wfList_file n es hwf
    rw [filesList]
    refine List.Nodup.cons ?_ (ih hes)
    intro hin
    obtain ⟨n', rest, hn', hp'⟩ := mem_filesList_structure pre es _ hin
    have : n = n' ∧ ([] : List (List Char)) = rest := by
      apply head_seg_eq pre n n' [] rest
      simpa using hp'
    exact hmem (this.1 ▸ hn')
  · intro pre n cs es ih1 ih2 hwf
    obtain ⟨_, hmem, hcs, hes⟩ := wfList_dir n cs es hwf
    rw [filesList]
    refine List.Nodup.append (ih1 hcs) (ih2 hes) ?_
    intro p hpA hpB
    obtain ⟨n1, r1, _, hp1⟩ := mem_filesList_structure (pre ++ [n]) cs p hpA
    obtain ⟨n2, r2, hn2, hp2⟩ := mem_filesList_structure pre es p hpB
    have hp1' : p = pre ++ n :: (n1 :: r1) := by simp [hp1]
    have : n = n2 ∧ (n1 :: r1) = r2 := by
      apply head_seg_eq pre n n2 (n1 :: r1) r2
      rw [← hp1', hp2]
    exact hmem (this.1 ▸ hn2)

theorem mem_dirsList_structure :
    ∀ pre cs, ∀ p ∈ dirsList pre cs,
      ∃ n rest, n ∈ cs.map FSEntry.name ∧ p = pre ++ n :: rest := by
  apply walk_induction
    (motive := fun pre cs => ∀ p ∈ dirsList pre cs,
      ∃ n rest, n ∈ cs.map FSEntry.name ∧ p = pre ++ n :: rest)
  · intro pre p hp
    simp [dirsList] at hp
  · intro pre n es ih p hp
    rw [dirsList] at hp
    obtain ⟨n', rest, hn', hp'⟩ := ih p hp
    exact ⟨n', rest, by simp [hn'], hp'⟩
  · intro pre n cs es ih1 ih2 p hp
    rw [dirsList] at hp
    rcases List.mem_cons.mp hp with h | h
    · exact ⟨n, [], by simp [FSEntry.name], h⟩
    · rcases List.mem_append.mp h with h' | h'
      · obtain ⟨n', rest, _, hp'⟩ := ih1 p h'
        exact ⟨n, n' :: rest, by simp [FSEntry.name], by simp [hp']⟩
      · obtain ⟨n', rest, hn', hp'⟩ := ih2 p h'
        exact ⟨n', rest, by simp [hn'], hp'⟩

theorem dirs_files_disjoint :
    ∀ pre cs, wfList cs = true → ∀ p ∈ dirsList pre cs, p ∉ filesList pre cs := by
  apply walk_induction
    (motive := fun pre cs => wfList cs = true →
      ∀ p ∈ dirsList pre cs, p ∉ filesList pre cs)
  · intro pre _ p hp
    simp [dirsList] at hp
  · intro pre n es ih hwf p hp hpf
    obtain ⟨_, hmem, hes⟩ := wfList_file n es hwf
    rw [dirsList] at hp
    rw [filesList] at hpf
    rcases List.mem_cons.mp hpf with h | h
    · obtain ⟨n', rest, hn', hp'⟩ := mem_dirsList_structure pre es p hp
      have : n' = n ∧ rest = ([] : List (List Char)) := by
        apply head_seg_eq pre n' n rest []
        rw [← hp', h]
      exact hmem (this.1 ▸ hn')
    · exact ih hes p hp h
  · intro pre n cs es ih1 ih2 hwf p hp hpf
    obtain ⟨_, hmem, hcs, hes⟩ := wfList_dir n cs es hwf
    rw [dirsList] at hp
    rw [filesList] at hpf
    rcases List.mem_cons.mp hp with h | h
    · subst h
      rcases List.mem_append.mp hpf with h' | h'
      · obtain ⟨n1, r1, _, hp1⟩ := mem_filesList_structure (pre ++ [n]) cs _ h'
        have hlen := congrArg List.length hp1
        simp [List.length_append] at hlen
      · obtain ⟨n2, r2, hn2, hp2⟩ := mem_filesList_structure pre es _ h'
        have : n = n2 ∧ ([] : List (List Char)) = r2 := by
          apply head_seg_eq pre n n2 [] r2
          simpa using hp2
        exact hmem (this.1 ▸ hn2)
    · rcases List.mem_append.mp h with hd | hd
      · rcases List.mem_append.mp hpf with h' | h'
        · exact ih1 hcs p hd h'
        · obtain ⟨n1, r1, _, hp1⟩ := mem_dirsList_structure (pre ++ [n]) cs p hd
          obtain ⟨n2, r2, hn2, hp2⟩ := mem_filesList_structure pre es p h'
          have hp1' : p = pre ++ n :: (n1 :: r1) := by simp [hp1]
          have : n = n2 ∧ (n1 :: r1) = r2 := by
            apply head_seg_eq pre n n2 (n1 :: r1) r2
            rw [← hp1', hp2]
          exact hmem (this.1 ▸ hn2)
      · rcases List.mem_append.mp hpf with h' | h'
        · obtain ⟨n1, r1, hn1, hp1⟩ := mem_dirsList_structure pre es p hd
          obtain ⟨n2, r2, _, hp2⟩ := mem_filesList_structure (pre ++ [n]) cs p h'
          have hp2' : p = pre ++ n :: (n2 :: r2) := by simp [hp2]
          have : n1 = n ∧ r1 = n2 :: r2 := by
            apply head_seg_eq pre n1 n r1 (n2 :: r2)
            rw [← hp1, hp2']
          exact hmem (this.1 ▸ hn1)
        · exact ih2 hes p hd h'

theorem projectNamePattern_eq_spec (l : List Char) :
    projectNamePattern l = specNameCondition l := by
  rcases l with _ | ⟨c, rest⟩
  · rfl
  · rcases rest.eq_nil_or_concat with h | ⟨mid, d, h⟩
    · subst h
      simp [projectNamePattern, specNameCondition]
    · subst h
      simp only [List.concat_eq_append]
      have h2 : (c :: (mid ++ [d])).getLast? = some d := by
        rw [show c :: (mid ++ [d]) = (c :: mid) ++ [d] by simp, List.getLast?_concat]
      have h3 : (List.drop 1 (c :: (mid ++ [d]))).dropLast = mid := by
        simp [List.dropLast_concat]
      have h4 : (c :: (mid ++ [d])).all isLowerAlnumHyphen =
          (isLowerAlnumHyphen c && (mid.all isLowerAlnumHyphen && isLowerAlnumHyphen d)) := by
        simp [List.all_append]
      rw [projectNamePattern, specNameCondition, h2, h3, h4]
      simp only [List.head?_cons]
      cases hc : isLowerAlnum c <;> cases hd : isLowerAlnum d <;>
        simp [isLowerAlnumHyphen, hc, hd, Bool.and_assoc, Bool.and_comm, Bool.and_left_comm]

/-- C1 (amended): `validateProjectName` accepts a candidate name if and only
if the name with leading and trailing white space removed has length 4 to
63, consists of lowercase letters, digits, or hyphens, and its first and
last characters are alphanumeric. (As stated the claim fails: the
validator trims the candidate before matching, so a name with surrounding
white space can be accepted.) -/
theorem C1_validateProjectName_accepts_iff (name : List Char) :
    validateProjectName name = none ↔ specNameCondition (goTrimSpace name) = true := by
  unfold validateProjectName
  by_cases h : goTrimSpace name = []
  · rw [if_pos h, h]
    simp [specNameCondition]
  · rw [if_neg h]
    by_cases hp : projectNamePattern (goTrimSpace name) = true
    · rw [projectNamePattern_eq_spec] at hp
      simp [hp]
      rw [← projectNamePattern_eq_spec] at hp
      simp [hp]
    · rw [projectNamePattern_eq_spec] at hp
      simp only [Bool.not_eq_true] at hp
      simp [hp]
      rw [← projectNamePattern_eq_spec] at hp
      simp [hp]

/-- C1 counterexample: the candidate name `" my-app-1"` (leading space) is
accepted by `validateProjectName`, yet its first character is not a
lowercase letter, digit, or hyphen, so the claim's acceptance condition is
false for it. -/
theorem C1_claim_false_at_space_name :
    validateProjectName (' ' :: String.data "my-app-1") = none ∧
    specNameCondition (' ' :: String.data "my-app-1") = false := by
  constructor
  · decide
  · decide

/-- C2 (amended): for every well-formed directory tree, the bundle produced
by `packageSource` contains a relative path if and only if it is the path
of a file and no path segment of it has a denylist entry as a string
prefix; each such file appears exactly once (the entry list has no
duplicates), and no directory path is stored as an entry. (As stated the
claim fails: `shouldSkip` matches by string prefix, not segment equality.)
-/
theorem C2_packageSource_entries (root : List FSEntry) (h : wfList root = true) :
    (∀ p, p ∈ packageSource root ↔ p ∈ filesList [] root ∧ segSkipped p = false) ∧
    (packageSource root).Nodup ∧
    (∀ p ∈ dirsList [] root, p ∉ packageSource root) := by
  have heq : packageSource root = (filesList [] root).filter (fun p => !(segSkipped p)) := by
    rw [packageSource, if_neg (by decide)]
    exact walkList_eq_filter [] root (by simp) h
  refine ⟨?_, ?_, ?_⟩
  · intro p
    rw [heq, List.mem_filter]
    simp
  · rw [heq]
    exact List.Nodup.filter _ (nodup_filesList [] root h)
  · intro p hp hpp
    rw [heq, List.mem_filter] at hpp
    exact dirs_files_disjoint [] root h p hp hpp.1

/-- C2 witness: the amended theorem instantiated at the concrete tree
`demoTree`. -/
theorem C2_packageSource_entries_witness :
    wfList demoTree = true ∧
    ((∀ p, p ∈ packageSource demoTree ↔
        p ∈ filesList [] demoTree ∧ segSkipped p = false) ∧
     (packageSource demoTree).Nodup ∧
     (∀ p ∈ dirsList [] demoTree, p ∉ packageSource demoTree)) :=
  ⟨by simp +decide [demoTree, wfList],
   C2_packageSource_entries demoTree (by simp +decide [demoTree, wfList])⟩

/-- C2 counterexample: the tree holding the single top-level file
`.gitignore` has no path segment equal to a denylist entry, yet
`packageSource` excludes the file (because `.gitignore` has the denylist
entry `.git` as a string prefix), so the bundle is empty where the claim
requires one entry. -/
theorem C2_claim_false_at_gitignore :
    packageSource [FSEntry.file (String.data ".gitignore")] = [] ∧
    segEqSkipped [String.data ".gitignore"] = false ∧
    filesList [] [FSEntry.file (String.data ".gitignore")] =
      [[String.data ".gitignore"]] := by
  refine ⟨?_, by decide, by simp [filesList]⟩
  simp +decide [packageSource, walkList]
theorem waitForBuildAux_timeout_eq (get : Nat → Except String Build) (t : Nat)
    (hall : ∀ j, ∃ b, get j = Except.ok b ∧
      (b.status = "queued" ∨ b.status = "running"))
    (k : Nat) (hk : k ≤ t / 5 + 1) :
    waitForBuildAux get t k = (Except.error (WaitErr.timeout t), t / 5 + 1) := by
  rw [waitForBuildAux]
  by_cases h : t < 5 * k
  · rw [dif_pos h]
    have hke : k = t / 5 + 1 := by omega
    rw [hke]
  · rw [dif_neg h]
    obtain ⟨b, hb, hst⟩ := hall k
    rw [hb]
    have hnterm : ¬ (b.status = "success" ∨ b.status = "failed") := by
      rcases hst with h1 | h1 <;> rw [h1] <;> decide
    simp only [if_neg hnterm, if_pos hst]
    exact waitForBuildAux_timeout_eq get t hall (k + 1) (by omega)
termination_by t / 5 + 1 - k
decreasing_by
  omega

theorem waitForBuildAux_reach (get : Nat → Except String Build) (t : Nat) (k : Nat)
    (h : ∀ i, i < k → 5 * i ≤ t ∧ ∃ b, get i = Except.ok b ∧
      (b.status = "queued" ∨ b.status = "running")) :
    waitForBuildAux get t 0 = waitForBuildAux get t k := by
  induction k with
  | zero => rfl
  | succ k ih =>
    rw [ih (fun i hi => h i (by omega))]
    obtain ⟨h5, b, hb, hst⟩ := h k (by omega)
    rw [waitForBuildAux, dif_neg (by omega), hb]
    have hnterm : ¬ (b.status = "success" ∨ b.status = "failed") := by
      rcases hst with h1 | h1 <;> rw [h1] <;> decide
    simp only [if_neg hnterm, if_pos hst]

theorem waitForBuildAux_terminal_at (get : Nat → Except String Build) (t : Nat)
    (k : Nat) (b : Build) (h5 : 5 * k ≤ t) (hb : get k = Except.ok b)
    (hterm : b.status = "success" ∨ b.status = "failed") :
    waitForBuildAux get t k = (Except.ok b, k + 1) := by
  rw [waitForBuildAux, dif_neg (by omega), hb]
  simp only [if_pos hterm]

theorem waitForBuildAux_unknown_at (get : Nat → Except String Build) (t : Nat)
    (k : Nat) (b : Build) (h5 : 5 * k ≤ t) (hb : get k = Except.ok b)
    (hterm : ¬ (b.status = "success" ∨ b.status = "failed"))
    (hrun : ¬ (b.status = "queued" ∨ b.status = "running")) :
    waitForBuildAux get t k = (Except.error (WaitErr.unknown b.status), k + 1) := by
  rw [waitForBuildAux, dif_neg (by omega), hb]
  simp only [if_neg hterm, if_neg hrun]

theorem waitForBuildAux_nonterminal_before (get : Nat → Except String Build)
    (t : Nat) (k : Nat) (r : Except WaitErr Build × Nat)
    (hr : waitForBuildAux get t k = r) :
    ∀ i, k ≤ i → i + 1 < r.2 → ∃ b, get i = Except.ok b ∧
      (b.status = "queued" ∨ b.status = "running") := by
  intro i hki hi
  rw [waitForBuildAux] at hr
  by_cases h : t < 5 * k
  · rw [dif_pos h] at hr
    subst hr
    omega
  · rw [dif_neg h] at hr
    cases hg : get k with
    | error e =>
      rw [hg] at hr
      subst hr
      simp at hi
      omega
    | ok b =>
      rw [hg] at hr
      by_cases hterm : b.status = "success" ∨ b.status = "failed"
      · simp only [if_pos hterm] at hr
        subst hr
        simp at hi
        omega
      · simp only [if_neg hterm] at hr
        by_cases hrun : b.status = "queued" ∨ b.status = "running"
        · rw [if_pos hrun] at hr
          by_cases hik : i = k
          · subst hik
            exact ⟨b, hg, hrun⟩
          · exact waitForBuildAux_nonterminal_before get t (k + 1) r hr i (by omega) hi
        · rw [if_neg hrun] at hr
          subst hr
          simp at hi
          omega
termination_by t / 5 + 1 - k
decreasing_by
  omega
theorem terminal_is_get (e : Event) (h : isTerminalGetEvent e = true) :
    isGetBuildEvent e = true := by
  cases e <;> simp [isTerminalGetEvent, isGetBuildEvent] at h ⊢
  
theorem noBCAT_of_no_get (tr : List Event)
    (h : ∀ e ∈ tr, isGetBuildEvent e = false) :
    noBuildCallsAfterTerminal tr := by
  intro i j e1 e2 h1 h2 hij hterm
  have := h e1 (List.get?_mem h1)
  rw [terminal_is_get e1 hterm] at this
  exact absurd this (by simp)

theorem noBCAT_append_left (pre post : List Event)
    (hpre : ∀ e ∈ pre, isGetBuildEvent e = false)
    (hpost : noBuildCallsAfterTerminal post) :
    noBuildCallsAfterTerminal (pre ++ post) := by
  intro i j e1 e2 h1 h2 hij hterm
  by_cases hi : i < pre.length
  · rw [List.get?_append hi] at h1
    have := hpre e1 (List.get?_mem h1)
    rw [terminal_is_get e1 hterm] at this
    exact absurd this (by simp)
  · push_neg at hi
    have hj : pre.length ≤ j := by omega
    rw [List.get?_append_right hi] at h1
    rw [List.get?_append_right hj] at h2
    exact hpost (i - pre.length) (j - pre.length) e1 e2 h1 h2 (by omega) hterm

theorem noBCAT_append_right (a b : List Event)
    (ha : noBuildCallsAfterTerminal a)
    (hb : ∀ e ∈ b, cleanEvent e = true) :
    noBuildCallsAfterTerminal (a ++ b) := by
  intro i j e1 e2 h1 h2 hij hterm
  by_cases hi : i < a.length
  · rw [List.get?_append hi] at h1
    by_cases hj : j < a.length
    · rw [List.get?_append hj] at h2
      exact ha i j e1 e2 h1 h2 hij hterm
    · push_neg at hj
      rw [List.get?_append_right hj] at h2
      have := hb e2 (List.get?_mem h2)
      simp [cleanEvent] at this
      exact ⟨this.1, this.2⟩
  · push_neg at hi
    rw [List.get?_append_right hi] at h1
    have := hb e1 (List.get?_mem h1)
    simp [cleanEvent] at this
    rw [terminal_is_get e1 hterm] at this
    exact absurd this.1 (by simp)

theorem waitEvents_get? (get : Nat → Except String Build) (polls i : Nat)
    (e : Event) (h : (waitEvents get polls).get? i = some e) :
    i < polls ∧ e = Event.apiGetBuild i ((get i).map Build.status) := by
  unfold waitEvents at h
  rw [List.get?_map] at h
  by_cases hi : i < polls
  · rw [List.get?_range hi] at h
    simp at h
    exact ⟨hi, h.symm⟩
  · have : (List.range polls).get? i = none := by
      rw [List.get?_eq_none]
      simpa using Nat.le_of_not_lt hi
    rw [this] at h
    simp at h

theorem noBCAT_waitEvents (get : Nat → Except String Build) (t : Nat) :
    noBuildCallsAfterTerminal (waitEvents get (waitForBuildAux get t 0).2) := by
  intro i j e1 e2 h1 h2 hij hterm
  obtain ⟨hi, he1⟩ := waitEvents_get? get _ i e1 h1
  obtain ⟨hj, he2⟩ := waitEvents_get? get _ j e2 h2
  by_cases hlast : i + 1 < (waitForBuildAux get t 0).2
  · obtain ⟨b, hb, hst⟩ := waitForBuildAux_nonterminal_before get t 0
      (waitForBuildAux get t 0) rfl i (by omega) hlast
    rw [he1, hb] at hterm
    simp only [Except.map] at hterm
    rcases hst with h' | h' <;> rw [h'] at hterm <;>
      simp [isTerminalGetEvent] at hterm
  · omega

theorem taxonomy_newCLIError (code msg : String) (exitCode : Nat) (em : Option String)
    (h : (code, exitCode) ∈ errorTaxonomy) :
    ((newCLIError code msg exitCode em).code,
     (newCLIError code msg exitCode em).exitCode) ∈ errorTaxonomy := h

theorem benignEvent_split (e : Event) (h : benignEvent e = true) :
    cleanEvent e = true ∧ isShellEvent e = false ∧ isJsonErrorEvent e = false := by
  simp only [benignEvent, Bool.and_eq_true, Bool.not_eq_true'] at h
  exact ⟨h.1.1, h.1.2, h.2⟩

theorem benign_logEvent (j : Bool) : benignEvent (logEvent j) = true := by
  cases j <;> decide

theorem forall_mem_append {α : Type} {P : α → Prop} {a b : List α}
    (ha : ∀ e ∈ a, P e) (hb : ∀ e ∈ b, P e) : ∀ e ∈ a ++ b, P e := by
  intro e he
  rcases List.mem_append.mp he with h | h
  · exact ha e h
  · exact hb e h

theorem forall_mem_ite {α : Type} {P : α → Prop} {c : Prop} [Decidable c]
    {a b : List α} (ha : ∀ e ∈ a, P e) (hb : ∀ e ∈ b, P e) :
    ∀ e ∈ (if c then a else b), P e := by
  split
  · exact ha
  · exact hb

theorem stdoutEmissions_append (a b : List Event) :
    stdoutEmissions (a ++ b) = stdoutEmissions a ++ stdoutEmissions b := by
  simp [stdoutEmissions]

theorem stdoutEmissions_eq_nil (tr : List Event)
    (h : ∀ e ∈ tr, isStdoutEmit e = false) : stdoutEmissions tr = [] := by
  induction tr with
  | nil => rfl
  | cons e tr ih =>
    have he := h e (by simp)
    have ih' := ih (fun x hx => h x (by simp [hx]))
    cases e
    case emit s em =>
      cases s with
      | stdout => simp [isStdoutEmit] at he
      | stderr => simpa [stdoutEmissions, List.filterMap_cons] using ih'
    all_goals simpa [stdoutEmissions, List.filterMap_cons] using ih'


theorem notStdout_logEvent_true : isStdoutEmit (logEvent true) = false := rfl

theorem deployResp_published (f : DeployFlags) (w : DeployWorld) (proj : Project)
    (usedName : String) (commit : Option SourceCommit)
    (version : Option BuildVersionInput) (build : Option Build)
    (previewURL productionURL : String) :
    (deployResp f w proj usedName commit version build previewURL productionURL).published =
      (f.publish && decide
        ((deployResp f w proj usedName commit version build previewURL
          productionURL).productionURL ≠ "")) := by
  simp [deployResp]

theorem deployEmit_props (f : DeployFlags) (w : DeployWorld) (proj : Project)
    (usedName : String) (commit : Option SourceCommit)
    (version : Option BuildVersionInput) (build : Option Build)
    (previewURL productionURL : String) :
    (∀ e, (deployEmit f w proj usedName commit version build previewURL productionURL).1 =
        Except.error e → (e.code, e.exitCode) ∈ errorTaxonomy) ∧
    (∀ r, (deployEmit f w proj usedName commit version build previewURL productionURL).1 =
        Except.ok r →
      r = deployResp f w proj usedName commit version build previewURL productionURL) ∧
    (∀ e ∈ (deployEmit f w proj usedName commit version build previewURL productionURL).2,
      benignEvent e = true) ∧
    (f.jsonOutput = true →
      (∀ r, (deployEmit f w proj usedName commit version build previewURL productionURL).1 =
          Except.ok r →
        stdoutEmissions
          (deployEmit f w proj usedName commit version build previewURL productionURL).2 =
          [Emission.jsonSuccess "deploy" r]) ∧
      (∀ e, (deployEmit f w proj usedName commit version build previewURL productionURL).1 =
          Except.error e →
        stdoutEmissions
          (deployEmit f w proj usedName commit version build previewURL productionURL).2 =
          [])) := by
  unfold deployEmit
  by_cases hj : f.jsonOutput
  · by_cases henc : w.jsonEncodeOk
    · simp only [hj, henc, if_true]
      refine ⟨by intro e he; simp at he, ?_, ?_, ?_⟩
      · intro r hr
        simp at hr
        exact hr.symm
      · intro e he
        simp at he
        subst he
        rfl
      · intro _
        refine ⟨?_, by intro e he; simp at he⟩
        intro r hr
        simp at hr
        subst hr
        rfl
    · simp only [hj, henc, if_true, if_false]
      refine ⟨?_, by intro r hr; simp at hr, by intro e he; simp at he, ?_⟩
      · intro e he
        simp at he
        subst he
        exact taxonomy_newCLIError _ _ _ _ (by decide)
      · intro _
        exact ⟨by intro r hr; simp at hr, by intro e _; rfl⟩
  · have hj' : f.jsonOutput = false := by simpa using hj
    simp only [hj', if_false, Bool.false_eq_true]
    refine ⟨by intro e he; simp at he, ?_, by intro e he; simp at he, ?_⟩
    · intro r hr
      simp at hr
      exact hr.symm
    · intro h
      exact h.elim

theorem deployPublish_props (f : DeployFlags) (w : DeployWorld) (proj : Project)
    (usedName : String) (commit : Option SourceCommit)
    (version : Option BuildVersionInput) (build : Option Build)
    (previewURL : String) :
    (∀ e, (deployPublish f w proj usedName commit version build previewURL).1 =
        Except.error e → (e.code, e.exitCode) ∈ errorTaxonomy) ∧
    (∀ r, (deployPublish f w proj usedName commit version build previewURL).1 =
        Except.ok r →
      r.published = (f.publish && decide (r.productionURL ≠ ""))) ∧
    (∀ e ∈ (deployPublish f w proj usedName commit version build previewURL).2,
      benignEvent e = true) ∧
    (f.jsonOutput = true →
      (∀ r, (deployPublish f w proj usedName commit version build previewURL).1 =
          Except.ok r →
        stdoutEmissions
          (deployPublish f w proj usedName commit version build previewURL).2 =
          [Emission.jsonSuccess "deploy" r]) ∧
      (∀ e, (deployPublish f w proj usedName commit version build previewURL).1 =
          Except.error e →
        stdoutEmissions
          (deployPublish f w proj usedName commit version build previewURL).2 =
          [])) ∧
    (f.publish = true → buildIsSuccess build = true →
      ∀ path, w.backend.publishBuild = Except.ok path →
      ∀ r, (deployPublish f w proj usedName commit version build previewURL).1 =
          Except.ok r →
        r.productionURL =
          (if goTrim path ≠ "" then goTrim path
           else resolvePublishURL w.baseURL (some proj))) := by
  unfold deployPublish
  by_cases hcond : f.publish ∧ buildIsSuccess build
  · rw [if_pos hcond]
    cases hpb : w.backend.publishBuild with
    | error e =>
      refine ⟨?_, by intro r hr; simp at hr, ?_, ?_, ?_⟩
      · intro e' he'
        simp at he'
        subst he'
        exact taxonomy_newCLIError _ _ _ _ (by decide)
      · intro x hx
        simp at hx
        rcases hx with h | h <;> subst h
        · exact benign_logEvent _
        · rfl
      · intro hj
        refine ⟨by intro r hr; simp at hr, ?_⟩
        intro e' _
        apply stdoutEmissions_eq_nil
        rw [hj]
        intro x hx
        simp at hx
        rcases hx with h | h <;> subst h <;> rfl
      · intro _ _ path hpath
        exact absurd hpath (by simp)
    | ok path =>
      obtain ⟨hE1, hE2, hE3, hE4⟩ := deployEmit_props f w proj usedName commit version
        build previewURL
        (if goTrim path = "" then resolvePublishURL w.baseURL (some proj) else goTrim path)
      refine ⟨?_, ?_, ?_, ?_, ?_⟩
      · intro e he
        exact hE1 e he
      · intro r hr
        rw [hE2 r hr, deployResp_published]
      · refine forall_mem_append (forall_mem_append ?_ (forall_mem_ite ?_ ?_)) hE3
        · intro x hx
          simp at hx
          rcases hx with h | h | h <;> subst h
          · exact benign_logEvent _
          · rfl
          · exact benign_logEvent _
        · intro x hx
          simp at hx
          subst hx
          exact benign_logEvent _
        · intro x hx
          simp at hx
      · intro hj
        obtain ⟨hS, hF⟩ := hE4 hj
        have hnil : stdoutEmissions
            ([logEvent f.jsonOutput, Event.apiPublish, logEvent f.jsonOutput] ++
             (if (if goTrim path = "" then resolvePublishURL w.baseURL (some proj)
                  else goTrim path) ≠ "" then [logEvent f.jsonOutput] else [])) = [] := by
          apply stdoutEmissions_eq_nil
          rw [hj]
          refine forall_mem_append ?_ (forall_mem_ite ?_ ?_)
          · intro x hx
            simp at hx
            rcases hx with h | h | h <;> subst h <;> rfl
          · intro x hx
            simp at hx
            subst hx
            rfl
          · intro x hx
            simp at hx
        constructor
        · intro r hr
          rw [stdoutEmissions_append, hnil, List.nil_append]
          exact hS r hr
        · intro e he
          rw [stdoutEmissions_append, hnil, List.nil_append]
          exact hF e he
      · intro hp hs path' hpath r hr
        simp at hpath
        subst hpath
        rw [hE2 r hr]
        simp only [deployResp, finalProductionURL]
        by_cases hpe : goTrim path = "" <;> simp [hpe]
  · rw [if_neg hcond]
    obtain ⟨hE1, hE2, hE3, hE4⟩ := deployEmit_props f w proj usedName commit version
      build previewURL ""
    refine ⟨hE1, ?_, hE3, hE4, ?_⟩
    · intro r hr
      rw [hE2 r hr, deployResp_published]
    · intro hp hs path hpath r hr
      exact absurd ⟨hp, by rw [hs]⟩ hcond

theorem waitEvents_mem (get : Nat → Except String Build) (n : Nat) (e : Event)
    (h : e ∈ waitEvents get n) :
    ∃ i, e = Event.apiGetBuild i ((get i).map Build.status) := by
  unfold waitEvents at h
  simp only [List.mem_map, List.mem_range] at h
  obtain ⟨i, _, hi⟩ := h
  exact ⟨i, hi.symm⟩

theorem waitEvents_no_stdout (get : Nat → Except String Build) (n : Nat) :
    ∀ e ∈ waitEvents get n, isStdoutEmit e = false := by
  intro e he
  obtain ⟨i, hi⟩ := waitEvents_mem get n e he
  subst hi
  rfl

theorem waitEvents_postOk (get : Nat → Except String Build) (n : Nat) :
    ∀ e ∈ waitEvents get n,
      isTriggerOrStart e = false ∧ isShellEvent e = false ∧
      isJsonErrorEvent e = false := by
  intro e he
  obtain ⟨i, hi⟩ := waitEvents_mem get n e he
  subst hi
  exact ⟨rfl, rfl, rfl⟩

theorem waitEvents_clean_none (get : Nat → Except String Build) (n : Nat) :
    ∀ e ∈ waitEvents get n, isGetBuildEvent e = true := by
  intro e he
  obtain ⟨i, hi⟩ := waitEvents_mem get n e he
  subst hi
  rfl

theorem benign_postOk (e : Event) (h : benignEvent e = true) :
    isTriggerOrStart e = false ∧ isShellEvent e = false ∧
    isJsonErrorEvent e = false := by
  obtain ⟨hc, hs, hj⟩ := benignEvent_split e h
  simp only [cleanEvent, Bool.and_eq_true, Bool.not_eq_true'] at hc
  exact ⟨hc.2, hs, hj⟩

theorem benign_not_get (e : Event) (h : benignEvent e = true) :
    isGetBuildEvent e = false := by
  obtain ⟨hc, _, _⟩ := benignEvent_split e h
  simp only [cleanEvent, Bool.and_eq_true, Bool.not_eq_true'] at hc
  exact hc.1

theorem benign_clean (e : Event) (h : benignEvent e = true) :
    cleanEvent e = true :=
  (benignEvent_split e h).1

theorem noBCAT_chain3 (l1 wev l2 post : List Event)
    (h1 : ∀ e ∈ l1, isGetBuildEvent e = false)
    (h2 : noBuildCallsAfterTerminal wev)
    (h3 : ∀ e ∈ l2, cleanEvent e = true)
    (h4 : ∀ e ∈ post, cleanEvent e = true) :
    noBuildCallsAfterTerminal (((l1 ++ wev) ++ l2) ++ post) := by
  have heq : ((l1 ++ wev) ++ l2) ++ post = l1 ++ (wev ++ (l2 ++ post)) := by
    simp [List.append_assoc]
  rw [heq]
  exact noBCAT_append_left _ _ h1
    (noBCAT_append_right _ _ h2 (forall_mem_append h3 h4))

theorem noBCAT_chain4 (l1 wev l2 l3 post : List Event)
    (h1 : ∀ e ∈ l1, isGetBuildEvent e = false)
    (h2 : noBuildCallsAfterTerminal wev)
    (h3 : ∀ e ∈ l2, cleanEvent e = true)
    (h3b : ∀ e ∈ l3, cleanEvent e = true)
    (h4 : ∀ e ∈ post, cleanEvent e = true) :
    noBuildCallsAfterTerminal ((((l1 ++ wev) ++ l2) ++ l3) ++ post) := by
  have heq : (((l1 ++ wev) ++ l2) ++ l3) ++ post =
      l1 ++ (wev ++ ((l2 ++ l3) ++ post)) := by
    simp [List.append_assoc]
  rw [heq]
  exact noBCAT_append_left _ _ h1
    (noBCAT_append_right _ _ h2
      (forall_mem_append (forall_mem_append h3 h3b) h4))

theorem deployAfterBuild_props (f : DeployFlags) (w : DeployWorld) (proj : Project)
    (usedName : String) (commit : Option SourceCommit)
    (version : Option BuildVersionInput) (build : Option Build) :
    (∀ e, (deployAfterBuild f w proj usedName commit version build).1 =
        Except.error e → (e.code, e.exitCode) ∈ errorTaxonomy) ∧
    (∀ r, (deployAfterBuild f w proj usedName commit version build).1 =
        Except.ok r →
      r.published = (f.publish && decide (r.productionURL ≠ ""))) ∧
    (∀ e ∈ (deployAfterBuild f w proj usedName commit version build).2,
      isTriggerOrStart e = false ∧ isShellEvent e = false ∧
      isJsonErrorEvent e = false) ∧
    (f.jsonOutput = true →
      (∀ r, (deployAfterBuild f w proj usedName commit version build).1 =
          Except.ok r →
        stdoutEmissions (deployAfterBuild f w proj usedName commit version build).2 =
          [Emission.jsonSuccess "deploy" r]) ∧
      (∀ e, (deployAfterBuild f w proj usedName commit version build).1 =
          Except.error e →
        stdoutEmissions (deployAfterBuild f w proj usedName commit version build).2 =
          [])) ∧
    noBuildCallsAfterTerminal (deployAfterBuild f w proj usedName commit version build).2 := by
  unfold deployAfterBuild
  by_cases hw : f.wait = true
  · simp only [hw, if_true]
    by_cases hbid : safeBuildID build = ""
    · simp only [if_pos hbid]
      refine ⟨?_, by intro r hr; simp at hr, by intro e he; simp at he, ?_, ?_⟩
      · intro e he
        simp at he
        subst he
        exact taxonomy_newCLIError _ _ _ _ (by decide)
      · intro _
        exact ⟨by intro r hr; simp at hr, by intro e _; rfl⟩
      · intro i j e1 e2 h1 h2 hij hterm
        simp at h1
    · rw [if_neg hbid]
      cases hres : (waitForBuild w.backend.getBuild f.timeout).1 with
      | error werr =>
        refine ⟨?_, by intro r hr; simp at hr, ?_, ?_, ?_⟩
        · intro e he
          simp at he
          subst he
          exact taxonomy_newCLIError _ _ _ _ (by decide)
        · refine forall_mem_append ?_ (waitEvents_postOk _ _)
          intro x hx
          simp at hx
          subst hx
          exact benign_postOk _ (benign_logEvent _)
        · intro hj
          refine ⟨by intro r hr; simp at hr, ?_⟩
          intro e _
          apply stdoutEmissions_eq_nil
          refine forall_mem_append ?_ (waitEvents_no_stdout _ _)
          intro x hx
          simp at hx
          subst hx
          rw [hj]
          rfl
        · refine noBCAT_append_left _ _ ?_ (noBCAT_waitEvents _ _)
          intro x hx
          simp at hx
          subst hx
          rfl
      | ok b =>
        dsimp only
        by_cases hsucc : b.status = "success"
        · rw [if_pos hsucc]
          obtain ⟨hP1, hP2, hP3, hP4, hP5⟩ := deployPublish_props f w proj usedName
            commit version (some b)
            (resolvePreviewURL w.baseURL (some proj) (some b))
          refine ⟨?_, ?_, ?_, ?_, ?_⟩
          · intro e he
            exact hP1 e he
          · intro r hr
            exact hP2 r hr
          · refine forall_mem_append (forall_mem_append (forall_mem_append
              (forall_mem_append ?_ (waitEvents_postOk _ _)) ?_)
              (forall_mem_ite ?_ ?_)) ?_
            · intro x hx
              simp at hx
              subst hx
              exact benign_postOk _ (benign_logEvent _)
            · intro x hx
              simp at hx
              subst hx
              exact benign_postOk _ (benign_logEvent _)
            · intro x hx
              simp at hx
              subst hx
              exact benign_postOk _ (benign_logEvent _)
            · intro x hx
              simp at hx
            · intro x hx
              exact benign_postOk _ (hP3 x hx)
          · intro hj
            obtain ⟨hS, hF⟩ := hP4 hj
            have hnil : stdoutEmissions
                ([logEvent f.jsonOutput] ++
                 waitEvents w.backend.getBuild
                   (waitForBuild w.backend.getBuild f.timeout).2 ++
                 [logEvent f.jsonOutput] ++
                 (if resolvePreviewURL w.baseURL (some proj) (some b) ≠ "" then
                   [logEvent f.jsonOutput] else [])) = [] := by
              apply stdoutEmissions_eq_nil
              rw [hj]
              refine forall_mem_append (forall_mem_append (forall_mem_append
                ?_ (waitEvents_no_stdout _ _)) ?_) (forall_mem_ite ?_ ?_)
              · intro x hx
                simp at hx
                subst hx
                rfl
              · intro x hx
                simp at hx
                subst hx
                rfl
              · intro x hx
                simp at hx
                subst hx
                rfl
              · intro x hx
                simp at hx
            refine ⟨?_, ?_⟩
            · intro r hr
              rw [stdoutEmissions_append, hnil, List.nil_append]
              exact hS r hr
            · intro e he
              rw [stdoutEmissions_append, hnil, List.nil_append]
              exact hF e he
          · refine noBCAT_chain4 _ _ _ _ _ ?_ (noBCAT_waitEvents _ _) ?_
              (forall_mem_ite ?_ ?_) ?_
            · intro x hx
              simp at hx
              subst hx
              rfl
            · intro x hx
              simp at hx
              subst hx
              rfl
            · intro x hx
              simp at hx
              subst hx
              rfl
            · intro x hx
              simp at hx
            · intro x hx
              exact benign_clean _ (hP3 x hx)
        · rw [if_neg hsucc]
          refine ⟨?_, by intro r hr; simp at hr, ?_, ?_, ?_⟩
          · intro e he
            simp at he
            subst he
            exact taxonomy_newCLIError _ _ _ _ (by decide)
          · refine forall_mem_append (forall_mem_append (forall_mem_append
              ?_ (waitEvents_postOk _ _)) ?_) ?_
            · intro x hx
              simp at hx
              subst hx
              exact benign_postOk _ (benign_logEvent _)
            · intro x hx
              simp at hx
              subst hx
              exact benign_postOk _ (benign_logEvent _)
            · intro x hx
              simp at hx
              rcases hx with h | h
              · subst h
                exact ⟨rfl, rfl, rfl⟩
              · revert h
                cases w.backend.getBuildLogs with
                | error e' => intro h; simp at h
                | ok logs =>
                  intro h
                  simp at h
                  rw [h.2]
                  exact benign_postOk _ (benign_logEvent _)
          · intro hj
            refine ⟨by intro r hr; simp at hr, ?_⟩
            intro e _
            apply stdoutEmissions_eq_nil
            refine forall_mem_append (forall_mem_append (forall_mem_append
              ?_ (waitEvents_no_stdout _ _)) ?_) ?_
            · intro x hx
              simp at hx
              subst hx
              rw [hj]
              rfl
            · intro x hx
              simp at hx
              subst hx
              rw [hj]
              rfl
            · intro x hx
              simp at hx
              rcases hx with h | h
              · subst h
                rfl
              · revert h
                cases w.backend.getBuildLogs with
                | error e' => intro h; simp at h
                | ok logs =>
                  intro h
                  simp at h
                  rw [h.2, hj]
                  rfl
          · refine noBCAT_chain3 _ _ _ _ ?_ (noBCAT_waitEvents _ _) ?_ ?_
            · intro x hx
              simp at hx
              subst hx
              rfl
            · intro x hx
              simp at hx
              subst hx
              rfl
            · intro x hx
              simp at hx
              rcases hx with h | h
              · subst h
                rfl
              · revert h
                cases w.backend.getBuildLogs with
                | error e' => intro h; simp at h
                | ok logs =>
                  intro h
                  simp at h
                  rw [h.2]
                  rfl
  · have hw' : f.wait = false := by simpa using hw
    simp only [hw', Bool.false_eq_true, if_false]
    cases build with
    | none =>
      obtain ⟨hP1, hP2, hP3, hP4, hP5⟩ := deployPublish_props f w proj usedName
        commit version none ""
      exact ⟨hP1, hP2, fun e he => benign_postOk _ (hP3 e he), hP4,
        noBCAT_of_no_get _ (fun e he => benign_not_get _ (hP3 e he))⟩
    | some b =>
      dsimp only
      by_cases hsucc : b.status = "success"
      · rw [if_pos hsucc]
        obtain ⟨hP1, hP2, hP3, hP4, hP5⟩ := deployPublish_props f w proj usedName
          commit version (some b)
          (resolvePreviewURL w.baseURL (some proj) (some b))
        refine ⟨hP1, hP2, ?_, ?_, ?_⟩
        · refine forall_mem_append (forall_mem_append ?_ (forall_mem_ite ?_ ?_))
            (fun e he => benign_postOk _ (hP3 e he))
          · intro x hx
            simp at hx
            subst hx
            exact benign_postOk _ (benign_logEvent _)
          · intro x hx
            simp at hx
            subst hx
            exact benign_postOk _ (benign_logEvent _)
          · intro x hx
            simp at hx
        · intro hj
          obtain ⟨hS, hF⟩ := hP4 hj
          have hnil : stdoutEmissions
              ([logEvent f.jsonOutput] ++
               (if resolvePreviewURL w.baseURL (some proj) (some b) ≠ "" then
                 [logEvent f.jsonOutput] else [])) = [] := by
            apply stdoutEmissions_eq_nil
            rw [hj]
            refine forall_mem_append ?_ (forall_mem_ite ?_ ?_)
            · intro x hx
              simp at hx
              subst hx
              rfl
            · intro x hx
              simp at hx
              subst hx
              rfl
            · intro x hx
              simp at hx
          refine ⟨?_, ?_⟩
          · intro r hr
            rw [stdoutEmissions_append, hnil, List.nil_append]
            exact hS r hr
          · intro e he
            rw [stdoutEmissions_append, hnil, List.nil_append]
            exact hF e he
        · apply noBCAT_of_no_get
          refine forall_mem_append (forall_mem_append ?_ (forall_mem_ite ?_ ?_))
            (fun e he => benign_not_get _ (hP3 e he))
          · intro x hx
            simp at hx
            subst hx
            rfl
          · intro x hx
            simp at hx
            subst hx
            rfl
          · intro x hx
            simp at hx
      · rw [if_neg hsucc]
        obtain ⟨hP1, hP2, hP3, hP4, hP5⟩ := deployPublish_props f w proj usedName
          commit version (some b) ""
        exact ⟨hP1, hP2, fun e he => benign_postOk _ (hP3 e he), hP4,
          noBCAT_of_no_get _ (fun e he => benign_not_get _ (hP3 e he))⟩

theorem runLocalBuild_events (f : DeployFlags) (w : DeployWorld)
    (plan : Option BuildPlan) :
    ∀ e ∈ (runLocalBuild f w plan).2,
      isGetBuildEvent e = false ∧ isTriggerOrStart e = false ∧
      isJsonErrorEvent e = false ∧
      (f.jsonOutput = true → isStdoutEmit e = false) := by
  unfold runLocalBuild
  intro e he
  by_cases hI : (resolveLocalCommands f w plan).1 = "" <;>
    by_cases hB : (resolveLocalCommands f w plan).2 = "" <;>
    by_cases hsI : w.shellOk (resolveLocalCommands f w plan).1 = true <;>
    by_cases hsB : w.shellOk (resolveLocalCommands f w plan).2 = true <;>
    simp [hI, hB, hsI, hsB] at he <;>
    first
      | (rcases he with rfl | rfl | rfl | rfl <;>
          exact ⟨rfl, rfl, rfl, fun hj => by first | rfl | (rw [hj]; rfl)⟩)
      | (rcases he with rfl | rfl | rfl <;>
          exact ⟨rfl, rfl, rfl, fun hj => by first | rfl | (rw [hj]; rfl)⟩)
      | (rcases he with rfl | rfl <;>
          exact ⟨rfl, rfl, rfl, fun hj => by first | rfl | (rw [hj]; rfl)⟩)

theorem deployBuildStage_props (f : DeployFlags) (w : DeployWorld) (proj : Project)
    (usedName : String) (commit : Option SourceCommit)
    (version : Option BuildVersionInput) (build0 : Option Build) :
    (∀ e, (deployBuildStage f w proj usedName commit version build0).1 =
        Except.error e → (e.code, e.exitCode) ∈ errorTaxonomy) ∧
    (∀ r, (deployBuildStage f w proj usedName commit version build0).1 =
        Except.ok r →
      r.published = (f.publish && decide (r.productionURL ≠ ""))) ∧
    (f.jsonOutput = true →
      (∀ r, (deployBuildStage f w proj usedName commit version build0).1 =
          Except.ok r →
        stdoutEmissions (deployBuildStage f w proj usedName commit version build0).2 =
          [Emission.jsonSuccess "deploy" r]) ∧
      (∀ e, (deployBuildStage f w proj usedName commit version build0).1 =
          Except.error e →
        stdoutEmissions (deployBuildStage f w proj usedName commit version build0).2 =
          [])) ∧
    noBuildCallsAfterTerminal
      (deployBuildStage f w proj usedName commit version build0).2 := by
  unfold deployBuildStage
  by_cases hlb : f.localBuild = true
  · simp only [hlb, if_true]
    by_cases hbid : safeBuildID build0 = ""
    · simp only [if_pos hbid]
      refine ⟨?_, by intro r hr; simp at hr, ?_, ?_⟩
      · intro e he
        simp at he
        subst he
        exact taxonomy_newCLIError _ _ _ _ (by decide)
      · intro _
        exact ⟨by intro r hr; simp at hr, by intro e _; rfl⟩
      · intro i j e1 e2 h1 h2 hij hterm
        simp at h1
    · rw [if_neg hbid]
      cases hlr : (runLocalBuild f w (deployPlanOf commit)).1 with
      | error e =>
        refine ⟨?_, by intro r hr; simp at hr, ?_, ?_⟩
        · intro e' he'
          simp at he'
          subst he'
          exact taxonomy_newCLIError _ _ _ _ (by decide)
        · intro hj
          refine ⟨by intro r hr; simp at hr, ?_⟩
          intro e' _
          exact stdoutEmissions_eq_nil _
            (fun x hx => (runLocalBuild_events _ _ _ x hx).2.2.2 hj)
        · exact noBCAT_of_no_get _
            (fun x hx => (runLocalBuild_events _ _ _ x hx).1)
      | ok u =>
        by_cases hdir : w.artifactDirOk (artifactDirOf f (deployPlanOf commit)) = true
        · rw [if_neg (by simp [hdir])]
          by_cases hpk : w.packageArtifactsOk = true
          · rw [if_neg (by simp [hpk])]
            cases hup : w.backend.uploadBuildArtifacts with
            | error e =>
              refine ⟨?_, by intro r hr; simp at hr, ?_, ?_⟩
              · intro e' he'
                simp at he'
                subst he'
                exact taxonomy_newCLIError _ _ _ _ (by decide)
              · intro hj
                refine ⟨by intro r hr; simp at hr, ?_⟩
                intro e' _
                apply stdoutEmissions_eq_nil
                refine forall_mem_append
                  (fun x hx => (runLocalBuild_events _ _ _ x hx).2.2.2 hj) ?_
                intro x hx
                simp at hx
                rcases hx with rfl | rfl | rfl | rfl <;>
                  first | rfl | (rw [hj]; rfl)
              · apply noBCAT_of_no_get
                refine forall_mem_append
                  (fun x hx => (runLocalBuild_events _ _ _ x hx).1) ?_
                intro x hx
                simp at hx
                rcases hx with rfl | rfl | rfl | rfl <;> rfl
            | ok b1 =>
              obtain ⟨hA1, hA2, hA3, hA4, hA5⟩ := deployAfterBuild_props f w proj
                usedName commit version (some b1)
              refine ⟨hA1, hA2, ?_, ?_⟩
              · intro hj
                obtain ⟨hS, hF⟩ := hA4 hj
                have hnil : stdoutEmissions
                    ((runLocalBuild f w (deployPlanOf commit)).2 ++
                     [logEvent f.jsonOutput, logEvent f.jsonOutput,
                      logEvent f.jsonOutput, Event.apiUploadArtifacts,
                      logEvent f.jsonOutput]) = [] := by
                  apply stdoutEmissions_eq_nil
                  refine forall_mem_append
                    (fun x hx => (runLocalBuild_events _ _ _ x hx).2.2.2 hj) ?_
                  intro x hx
                  simp at hx
                  rcases hx with rfl | rfl | rfl | rfl <;>
                    first | rfl | (rw [hj]; rfl)
                refine ⟨?_, ?_⟩
                · intro r hr
                  rw [stdoutEmissions_append, hnil, List.nil_append]
                  exact hS r hr
                · intro e he
                  rw [stdoutEmissions_append, hnil, List.nil_append]
                  exact hF e he
              · refine noBCAT_append_left _ _ ?_ hA5
                refine forall_mem_append
                  (fun x hx => (runLocalBuild_events _ _ _ x hx).1) ?_
                intro x hx
                simp at hx
                rcases hx with rfl | rfl | rfl | rfl <;> rfl
          · rw [if_pos (by simpa using hpk)]
            refine ⟨?_, by intro r hr; simp at hr, ?_, ?_⟩
            · intro e' he'
              simp at he'
              subst he'
              exact taxonomy_newCLIError _ _ _ _ (by decide)
            · intro hj
              refine ⟨by intro r hr; simp at hr, ?_⟩
              intro e' _
              apply stdoutEmissions_eq_nil
              refine forall_mem_append
                (fun x hx => (runLocalBuild_events _ _ _ x hx).2.2.2 hj) ?_
              intro x hx
              simp at hx
              subst hx
              rw [hj]
              rfl
            · apply noBCAT_of_no_get
              refine forall_mem_append
                (fun x hx => (runLocalBuild_events _ _ _ x hx).1) ?_
              intro x hx
              simp at hx
              subst hx
              rfl
        · rw [if_pos (by simpa using hdir)]
          refine ⟨?_, by intro r hr; simp at hr, ?_, ?_⟩
          · intro e' he'
            simp at he'
            subst he'
            exact taxonomy_newCLIError _ _ _ _ (by decide)
          · intro hj
            refine ⟨by intro r hr; simp at hr, ?_⟩
            intro e' _
            exact stdoutEmissions_eq_nil _
              (fun x hx => (runLocalBuild_events _ _ _ x hx).2.2.2 hj)
          · exact noBCAT_of_no_get _
              (fun x hx => (runLocalBuild_events _ _ _ x hx).1)
  · have hlb' : f.localBuild = false := by simpa using hlb
    simp only [hlb', Bool.false_eq_true, if_false]
    by_cases hbid : safeBuildID build0 = ""
    · simp only [if_pos hbid]
      by_cases hcid : safeCommitID commit = ""
      · simp only [if_pos hcid]
        refine ⟨?_, by intro r hr; simp at hr, ?_, ?_⟩
        · intro e he
          simp at he
          subst he
          exact taxonomy_newCLIError _ _ _ _ (by decide)
        · intro hj
          refine ⟨by intro r hr; simp at hr, ?_⟩
          intro e _
          apply stdoutEmissions_eq_nil
          intro x hx
          simp at hx
          subst hx
          rw [hj]
          rfl
        · apply noBCAT_of_no_get
          intro x hx
          simp at hx
          subst hx
          rfl
      · rw [if_neg hcid]
        cases htr : w.backend.triggerBuild with
        | error e =>
          refine ⟨?_, by intro r hr; simp at hr, ?_, ?_⟩
          · intro e' he'
            simp at he'
            subst he'
            exact taxonomy_newCLIError _ _ _ _ (by decide)
          · intro hj
            refine ⟨by intro r hr; simp at hr, ?_⟩
            intro e' _
            apply stdoutEmissions_eq_nil
            intro x hx
            simp at hx
            rcases hx with rfl | rfl <;> first | rfl | (rw [hj]; rfl)
          · apply noBCAT_of_no_get
            intro x hx
            simp at hx
            rcases hx with rfl | rfl <;> rfl
        | ok b1 =>
          obtain ⟨hA1, hA2, hA3, hA4, hA5⟩ := deployAfterBuild_props f w proj
            usedName commit version (some b1)
          refine ⟨hA1, hA2, ?_, ?_⟩
          · intro hj
            obtain ⟨hS, hF⟩ := hA4 hj
            have hnil : stdoutEmissions
                [logEvent f.jsonOutput, Event.apiTriggerBuild,
                 logEvent f.jsonOutput] = [] := by
              apply stdoutEmissions_eq_nil
              intro x hx
              simp at hx
              rcases hx with rfl | rfl | rfl <;> first | rfl | (rw [hj]; rfl)
            refine ⟨?_, ?_⟩
            · intro r hr
              rw [stdoutEmissions_append, hnil, List.nil_append]
              exact hS r hr
            · intro e he
              rw [stdoutEmissions_append, hnil, List.nil_append]
              exact hF e he
          · refine noBCAT_append_left _ _ ?_ hA5
            intro x hx
            simp at hx
            rcases hx with rfl | rfl | rfl <;> rfl
    · rw [if_neg hbid]
      cases hst : w.backend.startBuild with
      | error e =>
        refine ⟨?_, by intro r hr; simp at hr, ?_, ?_⟩
        · intro e' he'
          simp at he'
          subst he'
          exact taxonomy_newCLIError _ _ _ _ (by decide)
        · intro hj
          refine ⟨by intro r hr; simp at hr, ?_⟩
          intro e' _
          apply stdoutEmissions_eq_nil
          intro x hx
          simp at hx
          rcases hx with rfl | rfl <;> first | rfl | (rw [hj]; rfl)
        · apply noBCAT_of_no_get
          intro x hx
          simp at hx
          rcases hx with rfl | rfl <;> rfl
      | ok u =>
        obtain ⟨hA1, hA2, hA3, hA4, hA5⟩ := deployAfterBuild_props f w proj
          usedName commit version build0
        refine ⟨hA1, hA2, ?_, ?_⟩
        · intro hj
          obtain ⟨hS, hF⟩ := hA4 hj
          have hnil : stdoutEmissions
              [logEvent f.jsonOutput, Event.apiStartBuild,
               logEvent f.jsonOutput] = [] := by
            apply stdoutEmissions_eq_nil
            intro x hx
            simp at hx
            rcases hx with rfl | rfl | rfl <;> first | rfl | (rw [hj]; rfl)
          refine ⟨?_, ?_⟩
          · intro r hr
            rw [stdoutEmissions_append, hnil, List.nil_append]
            exact hS r hr
          · intro e he
            rw [stdoutEmissions_append, hnil, List.nil_append]
            exact hF e he
        · refine noBCAT_append_left _ _ ?_ hA5
          intro x hx
          simp at hx
          rcases hx with rfl | rfl | rfl <;> rfl

theorem stderrJsonErrors_append (a b : List Event) :
    stderrJsonErrors (a ++ b) = stderrJsonErrors a ++ stderrJsonErrors b := by
  simp [stderrJsonErrors]

theorem stderrJsonErrors_eq_nil (tr : List Event)
    (h : ∀ e ∈ tr, isJsonErrorEvent e = false) : stderrJsonErrors tr = [] := by
  induction tr with
  | nil => rfl
  | cons e tr ih =>
    have he := h e (by simp)
    have ih' := ih (fun x hx => h x (by simp [hx]))
    cases e
    case emit s em =>
      cases em with
      | jsonError c m => simp [isJsonErrorEvent] at he
      | text => simpa [stderrJsonErrors, List.filterMap_cons] using ih'
      | jsonSuccess c d =>
        cases s <;> simpa [stderrJsonErrors, List.filterMap_cons] using ih'
    all_goals simpa [stderrJsonErrors, List.filterMap_cons] using ih'

theorem deployBuildStage_noJsonErr (f : DeployFlags) (w : DeployWorld)
    (proj : Project) (usedName : String) (commit : Option SourceCommit)
    (version : Option BuildVersionInput) (build0 : Option Build) :
    ∀ e ∈ (deployBuildStage f w proj usedName commit version build0).2,
      isJsonErrorEvent e = false := by
  unfold deployBuildStage
  by_cases hlb : f.localBuild = true
  · simp only [hlb, if_true]
    by_cases hbid : safeBuildID build0 = ""
    · simp only [if_pos hbid]
      intro x hx
      simp at hx
    · rw [if_neg hbid]
      cases hlr : (runLocalBuild f w (deployPlanOf commit)).1 with
      | error e =>
        exact fun x hx => (runLocalBuild_events _ _ _ x hx).2.2.1
      | ok u =>
        by_cases hdir : w.artifactDirOk (artifactDirOf f (deployPlanOf commit)) = true
        · rw [if_neg (by simp [hdir])]
          by_cases hpk : w.packageArtifactsOk = true
          · rw [if_neg (by simp [hpk])]
            cases hup : w.backend.uploadBuildArtifacts with
            | error e =>
              refine forall_mem_append
                (fun x hx => (runLocalBuild_events _ _ _ x hx).2.2.1) ?_
              intro x hx
              simp at hx
              rcases hx with rfl | rfl | rfl | rfl <;> rfl
            | ok b1 =>
              obtain ⟨_, _, hA3, _, _⟩ := deployAfterBuild_props f w proj
                usedName commit version (some b1)
              refine forall_mem_append (forall_mem_append
                (fun x hx => (runLocalBuild_events _ _ _ x hx).2.2.1) ?_)
                (fun x hx => (hA3 x hx).2.2)
              intro x hx
              simp at hx
              rcases hx with rfl | rfl | rfl | rfl <;> rfl
          · rw [if_pos (by simpa using hpk)]
            refine forall_mem_append
              (fun x hx => (runLocalBuild_events _ _ _ x hx).2.2.1) ?_
            intro x hx
            simp at hx
            subst hx
            rfl
        · rw [if_pos (by simpa using hdir)]
          exact fun x hx => (runLocalBuild_events _ _ _ x hx).2.2.1
  · have hlb' : f.localBuild = false := by simpa using hlb
    simp only [hlb', Bool.false_eq_true, if_false]
    by_cases hbid : safeBuildID build0 = ""
    · simp only [if_pos hbid]
      by_cases hcid : safeCommitID commit = ""
      · simp only [if_pos hcid]
        intro x hx
        simp at hx
        subst hx
        rfl
      · rw [if_neg hcid]
        cases htr : w.backend.triggerBuild with
        | error e =>
          intro x hx
          simp at hx
          rcases hx with rfl | rfl <;> rfl
        | ok b1 =>
          obtain ⟨_, _, hA3, _, _⟩ := deployAfterBuild_props f w proj
            usedName commit version (some b1)
          refine forall_mem_append ?_ (fun x hx => (hA3 x hx).2.2)
          intro x hx
          simp at hx
          rcases hx with rfl | rfl | rfl <;> rfl
    · rw [if_neg hbid]
      cases hst : w.backend.startBuild with
      | error e =>
        intro x hx
        simp at hx
        rcases hx with rfl | rfl <;> rfl
      | ok u =>
        obtain ⟨_, _, hA3, _, _⟩ := deployAfterBuild_props f w proj
          usedName commit version build0
        refine forall_mem_append ?_ (fun x hx => (hA3 x hx).2.2)
        intro x hx
        simp at hx
        rcases hx with rfl | rfl | rfl <;> rfl


theorem uploadTrace_events (f : DeployFlags) (commit : Option SourceCommit)
    (build0 : Option Build) :
    ∀ x ∈ uploadTrace f commit build0,
      x = logEvent f.jsonOutput ∨ x = Event.apiCreateProject ∨
      x = Event.apiUploadSource := by
  have hev0m : ∀ x ∈ (match resolveBuildVersionInput f with
      | some _ => [logEvent f.jsonOutput, logEvent f.jsonOutput]
      | none => ([] : List Event)),
      x = logEvent f.jsonOutput := by
    cases resolveBuildVersionInput f <;> intro x hx <;> simp at hx <;> tauto
  unfold uploadTrace
  refine forall_mem_append (forall_mem_append ?_ (forall_mem_ite ?_ ?_))
    (forall_mem_ite ?_ ?_)
  · refine forall_mem_append (forall_mem_append (forall_mem_append
      (forall_mem_append ?_ ?_) ?_) ?_) ?_
    · exact fun x hx => Or.inl (hev0m x hx)
    · intro x hx
      simp at hx
      tauto
    · intro x hx
      simp at hx
      tauto
    · intro x hx
      simp at hx
      tauto
    · intro x hx
      simp at hx
      tauto
  · intro x hx
    simp at hx
    tauto
  · intro x hx
    simp at hx
  · intro x hx
    simp at hx
    tauto
  · intro x hx
    simp at hx

set_option maxHeartbeats 2000000 in
theorem runDeploy_props (f : DeployFlags) (w : DeployWorld) :
    (∀ e, (runDeploy f w).1 = Except.error e →
      (e.code, e.exitCode) ∈ errorTaxonomy) ∧
    (∀ r, (runDeploy f w).1 = Except.ok r →
      r.published = (f.publish && decide (r.productionURL ≠ ""))) ∧
    (f.jsonOutput = true →
      (∀ r, (runDeploy f w).1 = Except.ok r →
        stdoutEmissions (runDeploy f w).2 = [Emission.jsonSuccess "deploy" r]) ∧
      (∀ e, (runDeploy f w).1 = Except.error e →
        stdoutEmissions (runDeploy f w).2 = [])) ∧
    (∀ e ∈ (runDeploy f w).2, isJsonErrorEvent e = false) ∧
    noBuildCallsAfterTerminal (runDeploy f w).2 := by
  unfold runDeploy
  by_cases hpath : w.pathExists = true
  case neg =>
    rw [if_pos (by simp [hpath])]
    refine ⟨?_, by intro r hr; simp at hr, ?_, by intro x hx; simp at hx, ?_⟩
    · intro e he
      simp at he
      subst he
      exact taxonomy_newCLIError _ _ _ _ (by decide)
    · intro hj
      exact ⟨by intro r hr; simp at hr, by intro e _; rfl⟩
    · intro i j e1 e2 h1 h2 hij hterm
      simp at h1
  case pos =>
  rw [if_neg (by simp [hpath])]
  by_cases hurl : w.baseURL = ""
  case pos =>
    rw [if_pos hurl]
    refine ⟨?_, by intro r hr; simp at hr, ?_, by intro x hx; simp at hx, ?_⟩
    · intro e he
      simp at he
      subst he
      exact taxonomy_newCLIError _ _ _ _ (by decide)
    · intro hj
      exact ⟨by intro r hr; simp at hr, by intro e _; rfl⟩
    · intro i j e1 e2 h1 h2 hij hterm
      simp at h1
  case neg =>
  rw [if_neg hurl]
  by_cases hkey : w.apiKey = ""
  case pos =>
    rw [if_pos hkey]
    refine ⟨?_, by intro r hr; simp at hr, ?_, by intro x hx; simp at hx, ?_⟩
    · intro e he
      simp at he
      subst he
      exact taxonomy_newCLIError _ _ _ _ (by decide)
    · intro hj
      exact ⟨by intro r hr; simp at hr, by intro e _; rfl⟩
    · intro i j e1 e2 h1 h2 hij hterm
      simp at h1
  case neg =>
  rw [if_neg hkey]
  dsimp only
  cases hv : validateProjectName (goToLower (goTrim
      (if goTrim f.projectName = "" then w.baseName else goTrim f.projectName))).data with
  | some errMsg =>
    refine ⟨?_, by intro r hr; simp at hr, ?_, by intro x hx; simp at hx, ?_⟩
    · intro e he
      simp at he
      subst he
      exact taxonomy_newCLIError _ _ _ _ (by decide)
    · intro hj
      exact ⟨by intro r hr; simp at hr, by intro e _; rfl⟩
    · intro i j e1 e2 h1 h2 hij hterm
      simp at h1
  | none =>
  have hev0m : ∀ x ∈ (match resolveBuildVersionInput f with
      | some _ => [logEvent f.jsonOutput, logEvent f.jsonOutput]
      | none => ([] : List Event)),
      x = logEvent f.jsonOutput := by
    cases resolveBuildVersionInput f <;> intro x hx <;> simp at hx <;> tauto
  cases hcp : w.backend.createProject with
  | error e =>
    refine ⟨?_, by intro r hr; simp at hr, ?_, ?_, ?_⟩
    · intro e' he'
      simp at he'
      subst he'
      exact taxonomy_newCLIError _ _ _ _ (by decide)
    · intro hj
      refine ⟨by intro r hr; simp at hr, ?_⟩
      intro e' _
      apply stdoutEmissions_eq_nil
      refine forall_mem_append (forall_mem_append ?_ ?_) ?_
      · intro x hx
        rw [hev0m x hx, hj]
        rfl
      · intro x hx
        simp at hx
        subst hx
        rw [hj]
        rfl
      · intro x hx
        simp at hx
        subst hx
        rfl
    · refine forall_mem_append (forall_mem_append ?_ ?_) ?_
      · intro x hx
        rw [hev0m x hx]
        rfl
      · intro x hx
        simp at hx
        subst hx
        rfl
      · intro x hx
        simp at hx
        subst hx
        rfl
    · apply noBCAT_of_no_get
      refine forall_mem_append (forall_mem_append ?_ ?_) ?_
      · intro x hx
        rw [hev0m x hx]
        rfl
      · intro x hx
        simp at hx
        subst hx
        rfl
      · intro x hx
        simp at hx
        subst hx
        rfl
  | ok proj =>
  dsimp only
  by_cases hps : w.packageSourceOk = true
  case neg =>
    rw [if_pos hps]
    refine ⟨?_, by intro r hr; simp at hr, ?_, ?_, ?_⟩
    · intro e' he'
      simp at he'
      subst he'
      exact taxonomy_newCLIError _ _ _ _ (by decide)
    · intro hj
      refine ⟨by intro r hr; simp at hr, ?_⟩
      intro e' _
      apply stdoutEmissions_eq_nil
      refine forall_mem_append (forall_mem_append ?_ ?_) ?_
      · intro x hx
        rw [hev0m x hx, hj]
        rfl
      · intro x hx
        simp at hx
        subst hx
        rw [hj]
        rfl
      · intro x hx
        simp at hx
        rcases hx with rfl | rfl <;> first | rfl | (rw [hj]; rfl)
    · refine forall_mem_append (forall_mem_append ?_ ?_) ?_
      · intro x hx
        rw [hev0m x hx]
        rfl
      · intro x hx
        simp at hx
        subst hx
        rfl
      · intro x hx
        simp at hx
        rcases hx with rfl | rfl <;> rfl
    · apply noBCAT_of_no_get
      refine forall_mem_append (forall_mem_append ?_ ?_) ?_
      · intro x hx
        rw [hev0m x hx]
        rfl
      · intro x hx
        simp at hx
        subst hx
        rfl
      · intro x hx
        simp at hx
        rcases hx with rfl | rfl <;> rfl
  case pos =>
  rw [if_neg (by simp [hps])]
  cases hup : w.backend.uploadSource with
  | error e =>
    refine ⟨?_, by intro r hr; simp at hr, ?_, ?_, ?_⟩
    · intro e' he'
      simp at he'
      subst he'
      exact taxonomy_newCLIError _ _ _ _ (by decide)
    · intro hj
      refine ⟨by intro r hr; simp at hr, ?_⟩
      intro e' _
      apply stdoutEmissions_eq_nil
      refine forall_mem_append (forall_mem_append (forall_mem_append
        (forall_mem_append ?_ ?_) ?_) ?_) ?_
      · intro x hx
        rw [hev0m x hx, hj]
        rfl
      · intro x hx
        simp at hx
        subst hx
        rw [hj]
        rfl
      · intro x hx
        simp at hx
        rcases hx with rfl | rfl <;> first | rfl | (rw [hj]; rfl)
      · intro x hx
        simp at hx
        subst hx
        rw [hj]
        rfl
      · intro x hx
        simp at hx
        subst hx
        rfl
    · refine forall_mem_append (forall_mem_append (forall_mem_append
        (forall_mem_append ?_ ?_) ?_) ?_) ?_
      · intro x hx
        rw [hev0m x hx]
        rfl
      · intro x hx
        simp at hx
        subst hx
        rfl
      · intro x hx
        simp at hx
        rcases hx with rfl | rfl <;> rfl
      · intro x hx
        simp at hx
        subst hx
        rfl
      · intro x hx
        simp at hx
        subst hx
        rfl
    · apply noBCAT_of_no_get
      refine forall_mem_append (forall_mem_append (forall_mem_append
        (forall_mem_append ?_ ?_) ?_) ?_) ?_
      · intro x hx
        rw [hev0m x hx]
        rfl
      · intro x hx
        simp at hx
        subst hx
        rfl
      · intro x hx
        simp at hx
        rcases hx with rfl | rfl <;> rfl
      · intro x hx
        simp at hx
        subst hx
        rfl
      · intro x hx
        simp at hx
        subst hx
        rfl
  | ok pr =>
  obtain ⟨commit, build0⟩ := pr
  obtain ⟨hB1, hB2, hB4, hB5⟩ := deployBuildStage_props f w proj proj.name
    commit (resolveBuildVersionInput f) build0
  have hBJ := deployBuildStage_noJsonErr f w proj proj.name
    commit (resolveBuildVersionInput f) build0
  have hut := uploadTrace_events f commit build0
  refine ⟨hB1, hB2, ?_, ?_, ?_⟩
  · intro hj
    obtain ⟨hS, hF⟩ := hB4 hj
    have hnil : stdoutEmissions (uploadTrace f commit build0) = [] := by
      apply stdoutEmissions_eq_nil
      intro x hx
      rcases hut x hx with rfl | rfl | rfl
      · rw [hj]
        rfl
      · rfl
      · rfl
    refine ⟨?_, ?_⟩
    · intro r hr
      rw [stdoutEmissions_append, hnil, List.nil_append]
      exact hS r hr
    · intro e he
      rw [stdoutEmissions_append, hnil, List.nil_append]
      exact hF e he
  · refine forall_mem_append ?_ hBJ
    intro x hx
    rcases hut x hx with rfl | rfl | rfl <;> rfl
  · refine noBCAT_append_left _ _ ?_ hB5
    intro x hx
    rcases hut x hx with rfl | rfl | rfl <;> rfl

theorem runDeploy_eq_stage (f : DeployFlags) (w : DeployWorld) (proj : Project)
    (commit : Option SourceCommit) (build0 : Option Build)
    (hpath : w.pathExists = true) (hurl : w.baseURL ≠ "") (hkey : w.apiKey ≠ "")
    (hv : validateProjectName (goToLower (goTrim
      (if goTrim f.projectName = "" then w.baseName else goTrim f.projectName))).data =
      none)
    (hcp : w.backend.createProject = Except.ok proj)
    (hps : w.packageSourceOk = true)
    (hup : w.backend.uploadSource = Except.ok (commit, build0)) :
    runDeploy f w =
      ((deployBuildStage f w proj proj.name commit (resolveBuildVersionInput f)
          build0).1,
       uploadTrace f commit build0 ++
         (deployBuildStage f w proj proj.name commit (resolveBuildVersionInput f)
           build0).2) := by
  unfold runDeploy
  rw [if_neg (by simp [hpath]), if_neg hurl, if_neg hkey]
  dsimp only
  rw [hv, hcp]
  dsimp only
  rw [if_neg (by simp [hps]), hup]

theorem deployBuildStage_eq_start (f : DeployFlags) (w : DeployWorld)
    (proj : Project) (usedName : String) (commit : Option SourceCommit)
    (version : Option BuildVersionInput) (build0 : Option Build)
    (hlb : f.localBuild = false) (hbid : safeBuildID build0 ≠ "")
    (hsb : w.backend.startBuild = Except.ok ()) :
    deployBuildStage f w proj usedName commit version build0 =
      ((deployAfterBuild f w proj usedName commit version build0).1,
       [logEvent f.jsonOutput, Event.apiStartBuild, logEvent f.jsonOutput] ++
         (deployAfterBuild f w proj usedName commit version build0).2) := by
  unfold deployBuildStage
  rw [if_neg (by simp [hlb]), if_neg hbid, hsb]

theorem deployAfterBuild_wait_err (f : DeployFlags) (w : DeployWorld)
    (proj : Project) (usedName : String) (commit : Option SourceCommit)
    (version : Option BuildVersionInput) (build : Option Build)
    (hw : f.wait = true) (hbid : safeBuildID build ≠ "") (werr : WaitErr)
    (hwf : (waitForBuild w.backend.getBuild f.timeout).1 = Except.error werr) :
    deployAfterBuild f w proj usedName commit version build =
      (Except.error (newCLIError "build_failed" "build failed" 3
        (some (waitErrMessage werr))),
       [logEvent f.jsonOutput] ++
         waitEvents w.backend.getBuild (waitForBuild w.backend.getBuild f.timeout).2) := by
  unfold deployAfterBuild
  rw [if_pos hw, if_neg hbid, hwf]

theorem HandleError_fst (j : Bool) (e : CLIError) :
    (HandleError j (some e)).1 = e.exitCode := by
  cases j <;> rfl

theorem HandleError_events (j : Bool) (e : CLIError) :
    ∀ x ∈ (HandleError j (some e)).2,
      isShellEvent x = false ∧ isGetBuildEvent x = false ∧
      isTriggerOrStart x = false ∧ isStdoutEmit x = false := by
  intro x hx
  cases j <;> simp [HandleError] at hx <;> subst hx <;> exact ⟨rfl, rfl, rfl, rfl⟩

theorem deployProcess_error (f : DeployFlags) (w : DeployWorld) (e : CLIError)
    (ev : List Event) (hr : runDeploy f w = (Except.error e, ev)) :
    deployProcess f w =
      ((HandleError f.jsonOutput (some e)).1,
       ev ++ (HandleError f.jsonOutput (some e)).2) := by
  unfold deployProcess
  rw [hr]

theorem deployProcess_ok (f : DeployFlags) (w : DeployWorld) (r : DeployResponse)
    (ev : List Event) (hr : runDeploy f w = (Except.ok r, ev)) :
    deployProcess f w = (0, ev) := by
  unfold deployProcess
  rw [hr]

theorem deployProcess_exit (f : DeployFlags) (w : DeployWorld) :
    (∀ e, (runDeploy f w).1 = Except.error e →
      (deployProcess f w).1 = e.exitCode) ∧
    (∀ r, (runDeploy f w).1 = Except.ok r → (deployProcess f w).1 = 0) := by
  cases hr : runDeploy f w with
  | mk res ev =>
    cases res with
    | error e =>
      constructor
      · intro e' he'
        simp at he'
        subst he'
        rw [deployProcess_error f w e ev hr, HandleError_fst]
      · intro r hrr
        simp at hrr
    | ok r =>
      constructor
      · intro e' he'
        simp at he'
      · intro r' hrr
        rw [deployProcess_ok f w r ev hr]

-- string machinery for message distinctness

theorem string_data_append (a b : String) : (a ++ b).data = a.data ++ b.data := by
  cases a
  cases b
  rfl

theorem string_ne_of_get (a b : String) (n : Nat)
    (h : a.data.get? n ≠ b.data.get? n) : a ≠ b := by
  intro he
  subst he
  exact h rfl

theorem data_get_left (a b : String) (n : Nat) (h : n < a.data.length) :
    (a ++ b).data.get? n = a.data.get? n := by
  rw [string_data_append, List.get?_append h]

theorem data_get_right (a b : String) (n : Nat) (h : a.data.length ≤ n) :
    (a ++ b).data.get? n = b.data.get? (n - a.data.length) := by
  rw [string_data_append, List.get?_append_right h]

theorem timeout_msg_get6 (t : Nat) :
    ("build timeout after " ++ toString t ++ " seconds").data.get? 6 = some 't' := by
  have hlen : 6 < ("build timeout after " ++ toString t).data.length := by
    rw [string_data_append, List.length_append]
    have h20 : ("build timeout after ").data.length = 20 := by decide
    omega
  rw [data_get_left _ _ _ hlen, data_get_left _ _ _ (by decide)]
  decide

theorem timeout_msg_ne_empty (t : Nat) :
    ("build timeout after " ++ toString t ++ " seconds") ≠ "" := by
  apply string_ne_of_get _ _ 6
  rw [timeout_msg_get6]
  decide

theorem timeout_msg_ne_buildfailed (t : Nat) :
    ("build timeout after " ++ toString t ++ " seconds") ≠ "build failed" := by
  apply string_ne_of_get _ _ 6
  rw [timeout_msg_get6]
  decide

theorem render_timeout (t : Nat) :
    (newCLIError "build_failed" "build failed" 3
      (some ("build timeout after " ++ toString t ++ " seconds"))).render =
    "build failed" ++ ": " ++
      ("build timeout after " ++ toString t ++ " seconds") := by
  unfold CLIError.render newCLIError
  dsimp only
  rw [if_neg]
  push_neg
  exact ⟨timeout_msg_ne_empty t, timeout_msg_ne_buildfailed t⟩

theorem unknown_msg_get0 (st : String) :
    ("unknown build status: " ++ st).data.get? 0 = some 'u' := by
  rw [data_get_left _ _ _ (by decide)]
  decide

theorem unknown_msg_ne_empty (st : String) :
    ("unknown build status: " ++ st) ≠ "" := by
  apply string_ne_of_get _ _ 0
  rw [unknown_msg_get0]
  decide

theorem unknown_msg_ne_buildfailed (st : String) :
    ("unknown build status: " ++ st) ≠ "build failed" := by
  apply string_ne_of_get _ _ 0
  rw [unknown_msg_get0]
  decide

theorem render_unknown (st : String) :
    (newCLIError "build_failed" "build failed" 3
      (some ("unknown build status: " ++ st))).render =
    "build failed" ++ ": " ++ ("unknown build status: " ++ st) := by
  unfold CLIError.render newCLIError
  dsimp only
  rw [if_neg]
  push_neg
  exact ⟨unknown_msg_ne_empty st, unknown_msg_ne_buildfailed st⟩

theorem render_statusfail (s : String) :
    (newCLIError "build_failed" ("build failed with status: " ++ s) 3 none).render =
    "build failed with status: " ++ s := rfl

theorem render_timeout_ne_statusfail (t : Nat) (s : String) :
    (newCLIError "build_failed" "build failed" 3
      (some ("build timeout after " ++ toString t ++ " seconds"))).render ≠
    (newCLIError "build_failed" ("build failed with status: " ++ s) 3 none).render := by
  rw [render_timeout, render_statusfail]
  apply string_ne_of_get _ _ 12
  rw [data_get_left _ _ _ (by decide : 12 < ("build failed" ++ ": ").data.length),
    data_get_left _ _ _ (by decide : 12 < ("build failed with status: ").data.length)]
  decide

theorem render_unknown_ne_statusfail (st s : String) :
    (newCLIError "build_failed" "build failed" 3
      (some ("unknown build status: " ++ st))).render ≠
    (newCLIError "build_failed" ("build failed with status: " ++ s) 3 none).render := by
  rw [render_unknown, render_statusfail]
  apply string_ne_of_get _ _ 12
  rw [data_get_left _ _ _ (by decide : 12 < ("build failed" ++ ": ").data.length),
    data_get_left _ _ _ (by decide : 12 < ("build failed with status: ").data.length)]
  decide

theorem render_unknown_ne_timeout (st : String) (t : Nat) :
    (newCLIError "build_failed" "build failed" 3
      (some ("unknown build status: " ++ st))).render ≠
    (newCLIError "build_failed" "build failed" 3
      (some ("build timeout after " ++ toString t ++ " seconds"))).render := by
  rw [render_unknown, render_timeout]
  apply string_ne_of_get _ _ 14
  rw [data_get_right _ _ _ (by decide : ("build failed" ++ ": ").data.length ≤ 14),
    data_get_right _ _ _ (by decide : ("build failed" ++ ": ").data.length ≤ 14),
    (by decide : 14 - ("build failed" ++ ": ").data.length = 0),
    unknown_msg_get0]
  have hlen : 0 < ("build timeout after " ++ toString t).data.length := by
    rw [string_data_append, List.length_append]
    have h20 : ("build timeout after ").data.length = 20 := by decide
    omega
  rw [data_get_left _ _ _ hlen, data_get_left _ _ _ (by decide)]
  decide

/-- C3: with waiting requested and a backend that never reports a terminal
status, the poll loop fails as `build_failed` (exit 3) with the timeout
message; it performs timeout/5 + 1 five-second polls, so it fails at the
first check strictly past the timeout and within one interval of it, after
at least one poll; and the timeout message differs from every
backend-reported failure message. -/
theorem C3_wait_timeout (f : DeployFlags) (w : DeployWorld) (proj : Project)
    (commit : Option SourceCommit) (build0 : Option Build)
    (hpath : w.pathExists = true) (hurl : w.baseURL ≠ "") (hkey : w.apiKey ≠ "")
    (hv : validateProjectName (goToLower (goTrim
      (if goTrim f.projectName = "" then w.baseName else goTrim f.projectName))).data =
      none)
    (hcp : w.backend.createProject = Except.ok proj)
    (hps : w.packageSourceOk = true)
    (hup : w.backend.uploadSource = Except.ok (commit, build0))
    (hlb : f.localBuild = false) (hbid : safeBuildID build0 ≠ "")
    (hsb : w.backend.startBuild = Except.ok ()) (hw : f.wait = true)
    (hall : ∀ j, ∃ b, w.backend.getBuild j = Except.ok b ∧
      (b.status = "queued" ∨ b.status = "running")) :
    (runDeploy f w).1 = Except.error (newCLIError "build_failed" "build failed" 3
      (some ("build timeout after " ++ toString f.timeout ++ " seconds"))) ∧
    (deployProcess f w).1 = 3 ∧
    (waitForBuild w.backend.getBuild f.timeout).2 = f.timeout / 5 + 1 ∧
    f.timeout < 5 * (f.timeout / 5 + 1) ∧
    5 * (f.timeout / 5 + 1) ≤ f.timeout + 5 ∧
    1 ≤ f.timeout / 5 + 1 ∧
    (∀ s, (newCLIError "build_failed" "build failed" 3
        (some ("build timeout after " ++ toString f.timeout ++ " seconds"))).render ≠
      (newCLIError "build_failed" ("build failed with status: " ++ s) 3
        none).render) := by
  have htm := waitForBuildAux_timeout_eq w.backend.getBuild f.timeout hall 0
    (by omega)
  have hwf1 : (waitForBuild w.backend.getBuild f.timeout).1 =
      Except.error (WaitErr.timeout f.timeout) := by
    unfold waitForBuild
    rw [htm]
  have hwf2 : (waitForBuild w.backend.getBuild f.timeout).2 =
      f.timeout / 5 + 1 := by
    unfold waitForBuild
    rw [htm]
  have hab := deployAfterBuild_wait_err f w proj proj.name commit
    (resolveBuildVersionInput f) build0 hw hbid _ hwf1
  have hst := deployBuildStage_eq_start f w proj proj.name commit
    (resolveBuildVersionInput f) build0 hlb hbid hsb
  have hrd := runDeploy_eq_stage f w proj commit build0 hpath hurl hkey hv hcp
    hps hup
  have herr : (runDeploy f w).1 = Except.error (newCLIError "build_failed"
      "build failed" 3 (some ("build timeout after " ++ toString f.timeout ++
      " seconds"))) := by
    rw [hrd]
    dsimp only
    rw [hst]
    dsimp only
    rw [hab]
    rfl
  refine ⟨herr, ?_, hwf2, by omega, by omega, by omega,
    render_timeout_ne_statusfail f.timeout⟩
  exact (deployProcess_exit f w).1 _ herr

theorem C3_wait_timeout_witness :
    (runDeploy waitDemoFlags demoWorld).1 = Except.error (newCLIError
      "build_failed" "build failed" 3 (some ("build timeout after " ++
      toString waitDemoFlags.timeout ++ " seconds"))) ∧
    (deployProcess waitDemoFlags demoWorld).1 = 3 ∧
    (waitForBuild demoWorld.backend.getBuild waitDemoFlags.timeout).2 =
      waitDemoFlags.timeout / 5 + 1 ∧
    waitDemoFlags.timeout < 5 * (waitDemoFlags.timeout / 5 + 1) ∧
    5 * (waitDemoFlags.timeout / 5 + 1) ≤ waitDemoFlags.timeout + 5 ∧
    1 ≤ waitDemoFlags.timeout / 5 + 1 ∧
    (∀ s, (newCLIError "build_failed" "build failed" 3
        (some ("build timeout after " ++ toString waitDemoFlags.timeout ++
          " seconds"))).render ≠
      (newCLIError "build_failed" ("build failed with status: " ++ s) 3
        none).render) :=
  C3_wait_timeout waitDemoFlags demoWorld demoProject (some demoCommit)
    (some (demoBuild "b1" "queued")) rfl (by decide) (by decide) (by decide)
    rfl rfl rfl rfl (by decide) rfl rfl
    (fun _ => ⟨demoBuild "b1" "queued", rfl, Or.inl rfl⟩)

/-- C4: when a GetBuild poll returns a status that is none of queued,
running, success, or failed, the orchestrator fails as `build_failed`
(exit 3) with the unknown-status message, makes that poll its last
GetBuild call (k + 1 calls in total, no retry), and the message differs
from both the timeout message and every backend-reported failure
message. -/
theorem C4_unknown_status_fatal (f : DeployFlags) (w : DeployWorld)
    (proj : Project) (commit : Option SourceCommit) (build0 : Option Build)
    (k : Nat) (b : Build)
    (hpath : w.pathExists = true) (hurl : w.baseURL ≠ "") (hkey : w.apiKey ≠ "")
    (hv : validateProjectName (goToLower (goTrim
      (if goTrim f.projectName = "" then w.baseName else goTrim f.projectName))).data =
      none)
    (hcp : w.backend.createProject = Except.ok proj)
    (hps : w.packageSourceOk = true)
    (hup : w.backend.uploadSource = Except.ok (commit, build0))
    (hlb : f.localBuild = false) (hbid : safeBuildID build0 ≠ "")
    (hsb : w.backend.startBuild = Except.ok ()) (hw : f.wait = true)
    (hbefore : ∀ i, i < k → 5 * i ≤ f.timeout ∧
      ∃ b', w.backend.getBuild i = Except.ok b' ∧
        (b'.status = "queued" ∨ b'.status = "running"))
    (h5 : 5 * k ≤ f.timeout)
    (hb : w.backend.getBuild k = Except.ok b)
    (hst : b.status ∉ (["queued", "running", "success", "failed"] : List String)) :
    (runDeploy f w).1 = Except.error (newCLIError "build_failed" "build failed" 3
      (some ("unknown build status: " ++ b.status))) ∧
    (deployProcess f w).1 = 3 ∧
    (waitForBuild w.backend.getBuild f.timeout).2 = k + 1 ∧
    (∀ t : Nat, (newCLIError "build_failed" "build failed" 3
        (some ("unknown build status: " ++ b.status))).render ≠
      (newCLIError "build_failed" "build failed" 3
        (some ("build timeout after " ++ toString t ++ " seconds"))).render) ∧
    (∀ s, (newCLIError "build_failed" "build failed" 3
        (some ("unknown build status: " ++ b.status))).render ≠
      (newCLIError "build_failed" ("build failed with status: " ++ s) 3
        none).render) := by
  simp only [List.mem_cons, List.not_mem_nil, or_false] at hst
  push_neg at hst
  obtain ⟨hq, hr, hsu, hfa⟩ := hst
  have hterm : ¬ (b.status = "success" ∨ b.status = "failed") :=
    fun h => h.elim hsu hfa
  have hrun : ¬ (b.status = "queued" ∨ b.status = "running") :=
    fun h => h.elim hq hr
  have hu := waitForBuildAux_unknown_at w.backend.getBuild f.timeout k b h5 hb
    hterm hrun
  have hreach := waitForBuildAux_reach w.backend.getBuild f.timeout k hbefore
  have htot : waitForBuildAux w.backend.getBuild f.timeout 0 =
      (Except.error (WaitErr.unknown b.status), k + 1) := hreach.trans hu
  have hwf1 : (waitForBuild w.backend.getBuild f.timeout).1 =
      Except.error (WaitErr.unknown b.status) := by
    unfold waitForBuild
    rw [htot]
  have hwf2 : (waitForBuild w.backend.getBuild f.timeout).2 = k + 1 := by
    unfold waitForBuild
    rw [htot]
  have hab := deployAfterBuild_wait_err f w proj proj.name commit
    (resolveBuildVersionInput f) build0 hw hbid _ hwf1
  have hstg := deployBuildStage_eq_start f w proj proj.name commit
    (resolveBuildVersionInput f) build0 hlb hbid hsb
  have hrd := runDeploy_eq_stage f w proj commit build0 hpath hurl hkey hv hcp
    hps hup
  have herr : (runDeploy f w).1 = Except.error (newCLIError "build_failed"
      "build failed" 3 (some ("unknown build status: " ++ b.status))) := by
    rw [hrd]
    dsimp only
    rw [hstg]
    dsimp only
    rw [hab]
    rfl
  refine ⟨herr, ?_, hwf2, fun t => render_unknown_ne_timeout b.status t,
    fun s => render_unknown_ne_statusfail b.status s⟩
  exact (deployProcess_exit f w).1 _ herr

theorem C4_unknown_status_fatal_witness :
    (runDeploy waitDemoFlags unknownStatusWorld).1 = Except.error (newCLIError
      "build_failed" "build failed" 3
      (some ("unknown build status: " ++ (demoBuild "b1" "weird").status))) ∧
    (deployProcess waitDemoFlags unknownStatusWorld).1 = 3 ∧
    (waitForBuild unknownStatusWorld.backend.getBuild waitDemoFlags.timeout).2 =
      0 + 1 ∧
    (∀ t : Nat, (newCLIError "build_failed" "build failed" 3
        (some ("unknown build status: " ++ (demoBuild "b1" "weird").status))).render ≠
      (newCLIError "build_failed" "build failed" 3
        (some ("build timeout after " ++ toString t ++ " seconds"))).render) ∧
    (∀ s, (newCLIError "build_failed" "build failed" 3
        (some ("unknown build status: " ++ (demoBuild "b1" "weird").status))).render ≠
      (newCLIError "build_failed" ("build failed with status: " ++ s) 3
        none).render) :=
  C4_unknown_status_fatal waitDemoFlags unknownStatusWorld demoProject
    (some demoCommit) (some (demoBuild "b1" "queued")) 0 (demoBuild "b1" "weird")
    rfl (by decide) (by decide) (by decide) rfl rfl rfl rfl (by decide) rfl rfl
    (fun i hi => absurd hi (Nat.not_lt_zero i)) (by decide) rfl (by decide)

/-- C5: every error `runDeploy` can return carries a code and exit code
from the closed taxonomy (argument/configuration errors exit 1, backend
errors and unsupported local build exit 2, build failures exit 3, publish
failures exit 4), the process exits with that code, and a successful
invocation exits 0. -/
theorem C5_exit_code_taxonomy (f : DeployFlags) (w : DeployWorld) :
    (∀ e, (runDeploy f w).1 = Except.error e →
      (e.code, e.exitCode) ∈ errorTaxonomy ∧ (deployProcess f w).1 = e.exitCode) ∧
    (∀ r, (runDeploy f w).1 = Except.ok r → (deployProcess f w).1 = 0) := by
  refine ⟨fun e he => ⟨(runDeploy_props f w).1 e he,
    (deployProcess_exit f w).1 e he⟩, (deployProcess_exit f w).2⟩

theorem C5_exit_code_taxonomy_witness :
    ((newCLIError "invalid_project_path" "project path does not exist" 1
        none).code,
      (newCLIError "invalid_project_path" "project path does not exist" 1
        none).exitCode) ∈ errorTaxonomy ∧
    (deployProcess demoFlags badPathWorld).1 =
      (newCLIError "invalid_project_path" "project path does not exist" 1
        none).exitCode :=
  (C5_exit_code_taxonomy demoFlags badPathWorld).1 _ (by decide)

/-- C6: in local-build mode, when the upload returns a commit but no build
id, the run fails as `local_build_unsupported` with exit code 2 and the
whole process trace contains no shell execution. -/
theorem C6_local_build_no_shell (f : DeployFlags) (w : DeployWorld)
    (proj : Project) (c : SourceCommit)
    (hpath : w.pathExists = true) (hurl : w.baseURL ≠ "") (hkey : w.apiKey ≠ "")
    (hv : validateProjectName (goToLower (goTrim
      (if goTrim f.projectName = "" then w.baseName else goTrim f.projectName))).data =
      none)
    (hcp : w.backend.createProject = Except.ok proj)
    (hps : w.packageSourceOk = true)
    (hup : w.backend.uploadSource = Except.ok (some c, none))
    (hlb : f.localBuild = true) :
    (runDeploy f w).1 = Except.error (newCLIError "local_build_unsupported"
      "server did not return a build ID; local build upload is not supported by this server"
      2 none) ∧
    (deployProcess f w).1 = 2 ∧
    (∀ e ∈ (deployProcess f w).2, isShellEvent e = false) := by
  have hstage : deployBuildStage f w proj proj.name (some c)
      (resolveBuildVersionInput f) none =
      (Except.error (newCLIError "local_build_unsupported"
        "server did not return a build ID; local build upload is not supported by this server"
        2 none), []) := by
    unfold deployBuildStage
    rw [if_pos hlb]
    rfl
  have hrd := runDeploy_eq_stage f w proj (some c) none hpath hurl hkey hv hcp
    hps hup
  rw [hstage] at hrd
  have herr : (runDeploy f w).1 = Except.error (newCLIError
      "local_build_unsupported"
      "server did not return a build ID; local build upload is not supported by this server"
      2 none) := by
    rw [hrd]
  refine ⟨herr, (deployProcess_exit f w).1 _ herr, ?_⟩
  rw [deployProcess_error f w _ _ hrd]
  dsimp only
  refine forall_mem_append (forall_mem_append ?_ (by intro x hx; simp at hx)) ?_
  · intro x hx
    rcases uploadTrace_events f (some c) none x hx with rfl | rfl | rfl <;> rfl
  · exact fun x hx => (HandleError_events f.jsonOutput _ x hx).1

theorem C6_local_build_no_shell_witness :
    (runDeploy localFlags noBuildIdWorld).1 = Except.error (newCLIError
      "local_build_unsupported"
      "server did not return a build ID; local build upload is not supported by this server"
      2 none) ∧
    (deployProcess localFlags noBuildIdWorld).1 = 2 ∧
    (∀ e ∈ (deployProcess localFlags noBuildIdWorld).2, isShellEvent e = false) :=
  C6_local_build_no_shell localFlags noBuildIdWorld demoProject demoCommit
    rfl (by decide) (by decide) (by decide) rfl rfl rfl rfl

/-- C7: in any invocation, once a GetBuild call has returned a terminal
status (success or failed), the full process trace contains no later
GetBuild, TriggerBuild, or StartBuild call. -/
theorem C7_no_build_calls_after_terminal (f : DeployFlags) (w : DeployWorld) :
    noBuildCallsAfterTerminal (deployProcess f w).2 := by
  have h := (runDeploy_props f w).2.2.2.2
  cases hr : runDeploy f w with
  | mk res ev =>
    rw [hr] at h
    cases res with
    | ok r =>
      rw [deployProcess_ok f w r ev hr]
      exact h
    | error e =>
      rw [deployProcess_error f w e ev hr]
      dsimp only
      refine noBCAT_append_right _ _ h ?_
      intro x hx
      have := HandleError_events f.jsonOutput e x hx
      simp [cleanEvent, this.2.1, this.2.2.1]

/-- C8 counterexample: the claim (and the spec sentence behind it) says
that when the backend publish call returns an empty path the recorded
production URL equals the deterministic fallback base-URL/slash/project-id;
but `resolvePublishURL` prefers the project record's own publish URL, so a
project carrying one yields that URL instead of the fallback. -/
theorem C8_claim_false_at_project_publish_url :
    c8xWorld.backend.publishBuild = Except.ok "" ∧
    (runDeploy publishFlags c8xWorld).1 = Except.ok c8xResp ∧
    goTrim c8xProject.projectID ≠ "" ∧
    trimTrailingSlash (goTrim c8xWorld.baseURL) ≠ "" ∧
    c8xResp.productionURL ≠
      specPublishFallback c8xWorld.baseURL c8xProject.projectID :=
  ⟨rfl, by decide, by decide, by decide, by decide⟩

/-- C8 (amended): after a successful publish call the recorded production
URL is the trimmed backend path when non-empty, else the resolver value,
which prefers the project record's publish URL, then its publish runtime
reference, and only then the deterministic base-URL/slash/project-id
fallback; the fallback itself is empty when the project id or base URL is
empty. -/
theorem C8_production_url (f : DeployFlags) (w : DeployWorld) (proj : Project)
    (usedName : String) (commit : Option SourceCommit)
    (version : Option BuildVersionInput) (build : Option Build)
    (previewURL path : String) (r : DeployResponse)
    (hp : f.publish = true) (hs : buildIsSuccess build = true)
    (hpb : w.backend.publishBuild = Except.ok path)
    (hr : (deployPublish f w proj usedName commit version build previewURL).1 =
      Except.ok r) :
    r.productionURL = (if goTrim path ≠ "" then goTrim path
      else resolvePublishURL w.baseURL (some proj)) ∧
    resolvePublishURL w.baseURL (some proj) =
      (if goTrim proj.publishURL ≠ "" then goTrim proj.publishURL
       else if refsPublishURL proj ≠ "" then refsPublishURL proj
       else specPublishFallback w.baseURL proj.projectID) ∧
    (goTrim proj.projectID = "" ∨ trimTrailingSlash (goTrim w.baseURL) = "" →
      specPublishFallback w.baseURL proj.projectID = "") := by
  refine ⟨(deployPublish_props f w proj usedName commit version build
    previewURL).2.2.2.2 hp hs path hpb r hr, rfl, ?_⟩
  intro h
  unfold specPublishFallback
  rw [if_pos h]

theorem C8_production_url_witness :
    publishFlags.publish = true ∧
    buildIsSuccess (some (demoBuild "b1" "success")) = true ∧
    c8World.backend.publishBuild = Except.ok " /p/custom " ∧
    (deployPublish publishFlags c8World demoProject "my-app" (some demoCommit)
      none (some (demoBuild "b1" "success")) "").1 = Except.ok c8Resp ∧
    (c8Resp.productionURL = (if goTrim " /p/custom " ≠ "" then goTrim " /p/custom "
      else resolvePublishURL c8World.baseURL (some demoProject)) ∧
     resolvePublishURL c8World.baseURL (some demoProject) =
       (if goTrim demoProject.publishURL ≠ "" then goTrim demoProject.publishURL
        else if refsPublishURL demoProject ≠ "" then refsPublishURL demoProject
        else specPublishFallback c8World.baseURL demoProject.projectID) ∧
     (goTrim demoProject.projectID = "" ∨
        trimTrailingSlash (goTrim c8World.baseURL) = "" →
       specPublishFallback c8World.baseURL demoProject.projectID = "")) :=
  ⟨rfl, by decide, rfl, by decide,
   C8_production_url publishFlags c8World demoProject "my-app" (some demoCommit)
     none (some (demoBuild "b1" "success")) "" " /p/custom " c8Resp rfl
     (by decide) rfl (by decide)⟩

/-- C9: in machine-readable output mode the primary stream carries exactly
the one success JSON object on success and nothing at all on failure,
while the failure JSON object appears exactly once on the diagnostic
stream and never on the primary stream. -/
theorem C9_json_stream_discipline (f : DeployFlags) (w : DeployWorld)
    (hj : f.jsonOutput = true) :
    (∀ r, (runDeploy f w).1 = Except.ok r →
      stdoutEmissions (deployProcess f w).2 = [Emission.jsonSuccess "deploy" r] ∧
      stderrJsonErrors (deployProcess f w).2 = []) ∧
    (∀ e, (runDeploy f w).1 = Except.error e →
      stdoutEmissions (deployProcess f w).2 = [] ∧
      stderrJsonErrors (deployProcess f w).2 =
        [Emission.jsonError e.code e.message]) := by
  obtain ⟨_, _, hjson, hnoerr, _⟩ := runDeploy_props f w
  obtain ⟨hok, hfail⟩ := hjson hj
  constructor
  · intro r hrr
    have hsplit : runDeploy f w = (Except.ok r, (runDeploy f w).2) := by
      rw [← hrr]
    rw [deployProcess_ok f w r _ hsplit]
    exact ⟨hok r hrr, stderrJsonErrors_eq_nil _ hnoerr⟩
  · intro e hre
    have hsplit : runDeploy f w = (Except.error e, (runDeploy f w).2) := by
      rw [← hre]
    rw [deployProcess_error f w e _ hsplit, hj]
    dsimp only
    constructor
    · rw [stdoutEmissions_append, hfail e hre]
      rfl
    · rw [stderrJsonErrors_append, stderrJsonErrors_eq_nil _ hnoerr]
      rfl

theorem C9_json_stream_discipline_witness :
    stdoutEmissions (deployProcess demoFlags demoWorld).2 =
      [Emission.jsonSuccess "deploy" demoResp] ∧
    stderrJsonErrors (deployProcess demoFlags demoWorld).2 = [] :=
  (C9_json_stream_discipline demoFlags demoWorld rfl).1 demoResp (by decide)

/-- C10: in the success envelope the `published` field is true exactly when
the publish flag was requested and the recorded production URL is
non-empty — so a successful publish call that yields an empty URL is still
reported as not published. -/
theorem C10_published_iff (f : DeployFlags) (w : DeployWorld) :
    ∀ r, (runDeploy f w).1 = Except.ok r →
      r.published = (f.publish && decide (r.productionURL ≠ "")) :=
  fun r hr => (runDeploy_props f w).2.1 r hr

theorem C10_published_iff_witness :
    (runDeploy publishFlags c10World).1 = Except.ok c10Resp ∧
    c10World.backend.publishBuild = Except.ok "" ∧
    publishFlags.publish = true ∧
    c10Resp.published = false ∧
    c10Resp.published =
      (publishFlags.publish && decide (c10Resp.productionURL ≠ "")) :=
  ⟨by decide, rfl, rfl, by decide,
   C10_published_iff publishFlags c10World c10Resp (by decide)⟩
